import Mathlib

/-!
Shallow embedding of the mini-os simulator core (simulator.c / simulator.h).

Modelling conventions:
- C `int` pids with the `-1` sentinel are kept as `Int`; table indices use `.toNat`.
- Nonnegative counters (clock, pc, memory bounds, levels) are `Nat`; fields that
  genuinely range over negatives (`quantumRemaining`) are `Int`.
- The circular bounded FIFO queues (`readyQueue`, `mlfqRQ`, mutex `blockedQueue`)
  are modelled as lists: enqueue appends at the tail, dequeue removes the head,
  and the capacity check `size >= MAX_QUEUE_SIZE` becomes a length check.
- Callback invocations (`log_message`, `process_output`, `request_input`,
  `state_update`) become an explicit event trace returned alongside the state.
- Host-filesystem access for `readFile`/`writeFile` is a parameter `HostFS`.
-/

namespace MiniOS

/-- MEMORY_SIZE from simulator.h -/
def MEMORY_SIZE : Nat := 60
/-- MAX_PROGRAM_LINES from simulator.h -/
def MAX_PROGRAM_LINES : Nat := 50
/-- NUM_VARIABLES from simulator.h -/
def NUM_VARIABLES : Nat := 3
/-- PCB_SIZE from simulator.h -/
def PCB_SIZE : Nat := 5
/-- MAX_PROCESSES from simulator.h -/
def MAX_PROCESSES : Nat := 10
/-- MAX_QUEUE_SIZE from simulator.h -/
def MAX_QUEUE_SIZE : Nat := 10
/-- MLFQ_LEVELS from simulator.h -/
def MLFQ_LEVELS : Nat := 4
/-- NUM_RESOURCES from simulator.h -/
def NUM_RESOURCES : Nat := 3

/-- SchedulerType from simulator.h -/
inductive SchedulerType where
  | FCFS
  | RR
  | MLFQ
deriving DecidableEq, Repr

/-- ProcessState from simulator.h -/
inductive ProcessState where
  | NEW
  | READY
  | RUNNING
  | BLOCKED
  | TERMINATED
deriving DecidableEq, Repr

/-- ResourceType from simulator.h -/
inductive ResourceType where
  | RESOURCE_FILE
  | RESOURCE_USER_INPUT
  | RESOURCE_USER_OUTPUT
deriving DecidableEq, Repr

/-- Index of a resource into the mutex array (its C enum value). -/
def ResourceType.toIdx : ResourceType → Nat
  | .RESOURCE_FILE => 0
  | .RESOURCE_USER_INPUT => 1
  | .RESOURCE_USER_OUTPUT => 2

/-- MemoryWord from simulator.h: a (name, value) pair of bounded strings. -/
structure MemoryWord where
  name : String
  value : String
deriving DecidableEq, Repr

/-- PCB from simulator.h. `blockedOnResource` uses `Option` for the C cast
`(ResourceType)-1` sentinel. -/
structure PCB where
  processID : Int
  programNumber : Int
  state : ProcessState
  priority : Nat
  programCounter : Nat
  memoryLowerBound : Nat
  memoryUpperBound : Nat
  arrivalTime : Nat
  blockedOnResource : Option ResourceType
  quantumRemaining : Int
  mlfqLevel : Nat
deriving DecidableEq, Repr

/-- Mutex from simulator.h. The circular `blockedQueue` with head/tail/size is
modelled as a list in FIFO order (head of the list = head of the queue). -/
structure Mutex where
  locked : Bool
  lockingProcessID : Int
  blockedQueue : List Int
deriving DecidableEq, Repr

/-- SystemState from simulator.h. `mutexes` is indexed by `ResourceType.toIdx`;
`mlfqRQ` by level; `wasUnblockedThisCycle` by pid. -/
structure SystemState where
  memory : List MemoryWord
  memoryPointer : Nat
  processTable : List PCB
  mutexes : List Mutex
  readyQueue : List Int
  mlfqRQ : List (List Int)
  runningProcessID : Int
  clockCycle : Nat
  schedulerType : SchedulerType
  rrQuantum : Int
  mlfqQuantum : List Int
  needsInput : Bool
  inputVarName : String
  inputPid : Int
  simulationComplete : Bool
  wasUnblockedThisCycle : List Bool
deriving DecidableEq, Repr

/-- Events emitted through the GuiCallbacks surface. -/
inductive Event where
  | log (msg : String)
  | output (pid : Int) (text : String)
  | requestInput (pid : Int) (varName : String)
  | stateUpdate
  | fileWrite (filename : String) (data : String)
deriving DecidableEq, Repr

/-- Host filesystem collaborator: `read` returns the contents of a readable
file, `writable` says whether `fopen(..., "w")` would succeed. -/
structure HostFS where
  read : String → Option String
  writable : String → Bool

/-- processCount: in the model the process table holds exactly the loaded PCBs. -/
def SystemState.processCount (sys : SystemState) : Nat := sys.processTable.length

/-- findPCB from simulator.c: NULL when pid is outside [0, processCount). -/
def findPCB (sys : SystemState) (pid : Int) : Option PCB :=
  if 0 ≤ pid ∧ pid < (sys.processCount : Int) then sys.processTable[pid.toNat]?
  else none

/-- Replace the PCB at index `pid` (no-op when out of range, like writing
through a NULL-checked pointer). -/
def setPCB (sys : SystemState) (pid : Int) (pcb : PCB) : SystemState :=
  { sys with processTable := sys.processTable.set pid.toNat pcb }

/-- Read the mutex for resource `r`. -/
def getMutex (sys : SystemState) (r : ResourceType) : Mutex :=
  sys.mutexes.getD r.toIdx ⟨false, -1, []⟩

/-- Write the mutex for resource `r`. -/
def setMutex (sys : SystemState) (r : ResourceType) (m : Mutex) : SystemState :=
  { sys with mutexes := sys.mutexes.set r.toIdx m }

/-- getResourceTypeFromString from simulator.c. -/
def getResourceTypeFromString (s : String) : Option ResourceType :=
  if s = "file" then some .RESOURCE_FILE
  else if s = "userInput" then some .RESOURCE_USER_INPUT
  else if s = "userOutput" then some .RESOURCE_USER_OUTPUT
  else none


/-- Kernel-computable split of a character list at every space (the strtok
delimiter); consecutive delimiters yield empty fields that the tokeniser
filters out. -/
def splitOnSpace : List Char → List (List Char)
  | [] => [[]]
  | ch :: rest =>
      match splitOnSpace rest with
      | [] => [[]]
      | t :: ts => if ch = ' ' then [] :: t :: ts else (ch :: t) :: ts

/-- The strtok tokenisation of an instruction line: split on single spaces,
dropping empty fields (strtok skips delimiter runs). -/
def strTokens (line : String) : List String :=
  ((splitOnSpace line.data).map String.mk).filter (fun t => t ≠ "")

/-- Whether `tag` is a prefix of `s` (strncmp with the tag length). -/
def strHasTag (tag s : String) : Bool :=
  tag.data.isPrefixOf s.data

/-- Digits-only parse of a character list. -/
def digitsToNatQ : List Char → Option Nat
  | [] => none
  | l =>
      l.foldl (fun acc ch =>
        match acc with
        | none => none
        | some n => if ch.isDigit then some (n * 10 + (ch.toNat - 48)) else none)
        (some 0)

/-- Full-string integer parse (the strtol call with its endptr check; an
optional leading minus sign followed by digits only). -/
def strToIntQ (s : String) : Option Int :=
  match s.data with
  | [] => none
  | '-' :: rest => (digitsToNatQ rest).map (fun n => -(n : Int))
  | l => (digitsToNatQ l).map (fun n => (n : Int))

/-- Truncate a line at its first CR or LF (the strcspn-based newline strip). -/
def stripCRLF (s : String) : String :=
  String.mk (s.data.takeWhile (fun ch => ¬(ch = '\n' ∨ ch = '\r')))

/-- enqueueMutexBlocked from simulator.c: FIFO enqueue, false when full. -/
def enqueueMutexBlocked (m : Mutex) (pid : Int) : Bool × Mutex :=
  if MAX_QUEUE_SIZE ≤ m.blockedQueue.length then (false, m)
  else (true, { m with blockedQueue := m.blockedQueue ++ [pid] })

/-- The best-priority scan of dequeueMutexBlocked: walk the queue in FIFO
order keeping the first waiter whose PCB exists and whose priority is
strictly smaller than the best so far (initially 9999 / pid -1). -/
def findBestWaiter (sys : SystemState) : List Int → Int × Nat → Int × Nat
  | [], best => best
  | pid :: rest, best =>
      match findPCB sys pid with
      | some pcb =>
          if pcb.priority < best.2 then findBestWaiter sys rest (pid, pcb.priority)
          else findBestWaiter sys rest best
      | none => findBestWaiter sys rest best

/-- dequeueMutexBlocked from simulator.c: remove the waiter with the smallest
priority (FIFO tie-break).  Removing the head pops it; removing from the middle
rebuilds the queue excluding every entry equal to the chosen pid. -/
def dequeueMutexBlocked (sys : SystemState) (m : Mutex) : Int × Mutex × List Event :=
  match m.blockedQueue with
  | [] => (-1, m, [])
  | p :: rest =>
      let best := (findBestWaiter sys m.blockedQueue (-1, 9999)).1
      if best = -1 then
        -- fallback: FIFO dequeue of the head with an error log
        (p, { m with blockedQueue := rest },
          [Event.log "Error: Could not find highest priority process in mutex queue"])
      else if best = p then
        (best, { m with blockedQueue := rest }, [])
      else
        (best, { m with blockedQueue := m.blockedQueue.filter (fun q => q ≠ best) }, [])

/-- Read the MLFQ ready queue at `level`. -/
def getMLFQ (sys : SystemState) (level : Nat) : List Int :=
  sys.mlfqRQ.getD level []

/-- Write the MLFQ ready queue at `level`. -/
def setMLFQ (sys : SystemState) (level : Nat) (q : List Int) : SystemState :=
  { sys with mlfqRQ := sys.mlfqRQ.set level q }

/-- addToReadyQueue from simulator.c: on a full queue the process is dropped
and marked TERMINATED; otherwise it becomes READY and is appended. -/
def addToReadyQueue (sys : SystemState) (pid : Int) : SystemState × List Event :=
  match findPCB sys pid with
  | none => (sys, [])
  | some pcb =>
      if MAX_QUEUE_SIZE ≤ sys.readyQueue.length then
        (setPCB sys pid { pcb with state := .TERMINATED },
          [Event.log "Error: FCFS/RR Ready queue full, dropping process"])
      else
        let sys1 := setPCB sys pid { pcb with state := .READY }
        ({ sys1 with readyQueue := sys1.readyQueue ++ [pid] }, [])

/-- Recursion core of addToMLFQ.  The C function recurses on `level + 1` when
the target queue is full; `fuel = MLFQ_LEVELS` bounds that recursion (the C
recursion stops at the last level), so the fuel-0 branch is unreachable for
the levels the simulator ever passes. -/
def addToMLFQGo (sys : SystemState) (pid : Int) : Nat → Nat → SystemState × List Event
  | _, 0 => (sys, [])
  | level, fuel + 1 =>
      if MLFQ_LEVELS ≤ level then
        (sys, [Event.log "Error: Invalid MLFQ level"])
      else if MAX_QUEUE_SIZE ≤ (getMLFQ sys level).length then
        let warn := Event.log "Warning: MLFQ level full, trying next level"
        if level + 1 < MLFQ_LEVELS then
          let (sys', ev) := addToMLFQGo sys pid (level + 1) fuel
          (sys', warn :: ev)
        else
          match findPCB sys pid with
          | some pcb =>
              (setPCB sys pid { pcb with state := .TERMINATED },
                [warn, Event.log "Error: All MLFQ levels full - terminating process"])
          | none => (sys, [warn, Event.log "Error: All MLFQ levels full - terminating process"])
      else
        match findPCB sys pid with
        | none => (sys, [])
        | some pcb =>
            let sys1 := setPCB sys pid
              { pcb with state := .READY, mlfqLevel := level, priority := level }
            (setMLFQ sys1 level (getMLFQ sys1 level ++ [pid]), [])

/-- addToMLFQ from simulator.c (with the spill-to-lower-level policy). -/
def addToMLFQ (sys : SystemState) (pid : Int) (level : Nat) : SystemState × List Event :=
  addToMLFQGo sys pid level MLFQ_LEVELS

/-- The pop-until-READY loop inside scheduleNextProcess: non-READY entries are
discarded; returns -1 and the drained queue when nothing READY is found. -/
def popReadyLoop (sys : SystemState) : List Int → Int × List Int
  | [] => (-1, [])
  | pid :: rest =>
      match findPCB sys pid with
      | some pcb => if pcb.state = .READY then (pid, rest) else popReadyLoop sys rest
      | none => popReadyLoop sys rest

/-- The MLFQ arm of scheduleNextProcess: scan the given levels in order. -/
def schedMLFQScan (sys : SystemState) : List Nat → Int × SystemState
  | [] => (-1, sys)
  | lvl :: rest =>
      let pq := popReadyLoop sys (getMLFQ sys lvl)
      let sys' := setMLFQ sys lvl pq.2
      if pq.1 = -1 then schedMLFQScan sys' rest else (pq.1, sys')

/-- scheduleNextProcess from simulator.c: next runnable pid, or -1. -/
def scheduleNextProcess (sys : SystemState) : Int × SystemState :=
  if sys.schedulerType = .MLFQ then
    schedMLFQScan sys [0, 1, 2, 3]
  else
    let pq := popReadyLoop sys sys.readyQueue
    (pq.1, { sys with readyQueue := pq.2 })

/-- blockProcess from simulator.c. -/
def blockProcess (sys : SystemState) (pid : Int) (r : ResourceType) :
    SystemState × List Event :=
  match findPCB sys pid with
  | none => (sys, [])
  | some pcb =>
      let m := getMutex sys r
      let em := enqueueMutexBlocked m pid
      if em.1 = false then
        let sys1 := setPCB sys pid { pcb with state := .TERMINATED }
        let sys2 := if sys1.runningProcessID = pid then
            { sys1 with runningProcessID := -1 } else sys1
        (sys2, [Event.log "Error: Mutex queue full. Cannot block process. Terminating."])
      else
        let sys1 := setMutex sys r em.2
        let sys2 := setPCB sys1 pid
          { pcb with state := .BLOCKED, blockedOnResource := some r }
        let sys3 := if sys2.runningProcessID = pid then
            { sys2 with runningProcessID := -1 } else sys2
        (sys3, [Event.log "Process BLOCKED on resource", Event.stateUpdate])

/-- unblockProcess from simulator.c: priority-dequeue one waiter, mark it
READY, clear its blocked resource, flag it unblocked-this-cycle, and requeue
it (MLFQ: its recorded level; else the FCFS/RR queue). -/
def unblockProcess (sys : SystemState) (r : ResourceType) : SystemState × List Event :=
  let m := getMutex sys r
  if m.blockedQueue = [] then (sys, [])
  else
    let dq := dequeueMutexBlocked sys m
    let sys1 := setMutex sys r dq.2.1
    if dq.1 < 0 then
      (sys1, dq.2.2 ++ [Event.log "Error: Mutex queue not empty but dequeue failed."])
    else
      match findPCB sys1 dq.1 with
      | none => (sys1, dq.2.2 ++ [Event.log "Error: Dequeued PID but PCB not found."])
      | some pcb =>
          let sys2 := setPCB sys1 dq.1
            { pcb with state := .READY, blockedOnResource := none }
          let sys3 := { sys2 with
            wasUnblockedThisCycle := sys2.wasUnblockedThisCycle.set dq.1.toNat true }
          let se :=
            if sys3.schedulerType = .MLFQ then addToMLFQ sys3 dq.1 pcb.mlfqLevel
            else addToReadyQueue sys3 dq.1
          (se.1, dq.2.2 ++ se.2 ++
            [Event.log "Process UNBLOCKED from resource, added to ready queue.",
             Event.stateUpdate])

/-- do_semWait from simulator.c. -/
def do_semWait (sys : SystemState) (pid : Int) (resName : String) :
    SystemState × List Event :=
  match findPCB sys pid with
  | none => (sys, [])
  | some pcb =>
      match getResourceTypeFromString resName with
      | none =>
          (setPCB sys pid { pcb with state := .TERMINATED },
            [Event.log "Error: semWait invalid resource name. Terminating."])
      | some r =>
          let m := getMutex sys r
          if m.locked then
            let sys1 := setPCB sys pid
              { pcb with priority :=
                  if sys.schedulerType = .MLFQ then pcb.mlfqLevel else 0 }
            let be := blockProcess sys1 pid r
            (be.1, Event.log "Process requests locked resource. Blocking." :: be.2)
          else
            (setMutex sys r { m with locked := true, lockingProcessID := pid },
              [Event.log "Process acquired resource.", Event.stateUpdate])

/-- do_semSignal from simulator.c.  The final state_update fires when the
mutex waiter queue is empty after the signal (the C code re-reads m->size). -/
def do_semSignal (sys : SystemState) (pid : Int) (resName : String) :
    SystemState × List Event :=
  match findPCB sys pid with
  | none => (sys, [])
  | some pcb =>
      match getResourceTypeFromString resName with
      | none =>
          (setPCB sys pid { pcb with state := .TERMINATED },
            [Event.log "Error: semSignal invalid resource name. Terminating."])
      | some r =>
          let m := getMutex sys r
          let body :=
            if m.locked ∧ m.lockingProcessID = pid then
              let sys1 := setMutex sys r { m with locked := false, lockingProcessID := -1 }
              let ue := unblockProcess sys1 r
              (ue.1, Event.log "Process released resource." :: ue.2)
            else
              (setPCB sys pid { pcb with state := .TERMINATED },
                [Event.log "Error: Illegal semSignal on resource. Terminating."])
          if (getMutex body.1 r).blockedQueue = [] then
            (body.1, body.2 ++ [Event.stateUpdate])
          else body

/-- Read memory word `i` (out-of-range reads yield the empty word). -/
def memGet (sys : SystemState) (i : Nat) : MemoryWord :=
  sys.memory.getD i ⟨"", ""⟩

/-- Write memory word `i`. -/
def memSet (sys : SystemState) (i : Nat) (w : MemoryWord) : SystemState :=
  { sys with memory := sys.memory.set i w }

/-- The name tag of the k-th instruction word of process `pid`. -/
def instTag (pid : Int) : String := "Inst_" ++ toString pid ++ "_"

/-- The name tag of free variable slots of process `pid`. -/
def freeTag (pid : Int) : String := "Var_" ++ toString pid ++ "_Free"

/-- The full memory name of variable `v` of process `pid`. -/
def varFullName (pid : Int) (v : String) : String :=
  "Var_" ++ toString pid ++ "_" ++ v

/-- findInstructionCount from simulator.c: count the contiguous run of
Inst_<pid>_ words starting at the lower bound, stopping at the first
non-instruction word. -/
def findInstructionCount (sys : SystemState) (pid : Int) : Nat :=
  match findPCB sys pid with
  | none => 0
  | some pcb =>
      ((List.range' pcb.memoryLowerBound
          (pcb.memoryUpperBound + 1 - pcb.memoryLowerBound)).takeWhile
        (fun i => strHasTag (instTag pid) (memGet sys i).name)).length

/-- Scan core of findVariableMemoryIndex: return the slot named `target`, or
(when `findFree`) the first free slot seen over the whole scan. -/
def findVarIdxGo (sys : SystemState) (pid : Int) (target : String) (findFree : Bool) :
    List Nat → Option Nat → Option Nat
  | [], firstFree => if findFree then firstFree else none
  | i :: rest, firstFree =>
      let nm := (memGet sys i).name
      if nm = target then some i
      else
        let firstFree' :=
          if findFree ∧ firstFree = none ∧ (nm = "" ∨ strHasTag (freeTag pid) nm) then
            some i
          else firstFree
        findVarIdxGo sys pid target findFree rest firstFree'

/-- findVariableMemoryIndex from simulator.c. -/
def findVariableMemoryIndex (sys : SystemState) (pid : Int) (varName : String)
    (findFree : Bool) : Option Nat :=
  match findPCB sys pid with
  | none => none
  | some pcb =>
      let instructionCount := findInstructionCount sys pid
      let varAreaStart := pcb.memoryLowerBound + instructionCount
      let varAreaEnd := min (varAreaStart + NUM_VARIABLES - 1) pcb.memoryUpperBound
      findVarIdxGo sys pid (varFullName pid varName) findFree
        (List.range' varAreaStart (varAreaEnd + 1 - varAreaStart)) none

/-- setVariable from simulator.c: reuse the existing slot or the first free
one; with no slot left the process is terminated (store exhausted).  Stored
names and values are truncated to 49 characters like the C char[50] fields. -/
def setVariable (sys : SystemState) (pid : Int) (varName : String) (value : String) :
    SystemState × List Event :=
  match findPCB sys pid with
  | none => (sys, [])
  | some pcb =>
      if varName = "" then
        (setPCB sys pid { pcb with state := .TERMINATED },
          [Event.log "Error: Attempt to set variable with empty name."])
      else
        let warnEv :=
          if varName = "input" ∨ varName = "readFile" then
            [Event.log "Warning: Setting variable with reserved name."]
          else []
        match findVariableMemoryIndex sys pid varName true with
        | none =>
            (setPCB sys pid { pcb with state := .TERMINATED },
              warnEv ++ [Event.log "Error: No free memory slot found for variable. Terminating."])
        | some i =>
            (memSet sys i ⟨(varFullName pid varName).take 49, value.take 49⟩, warnEv)

/-- getVariable from simulator.c: look the variable up, falling back to the
file_<name> auxiliary binding; a miss after the fallback terminates the
process. -/
def getVariable (sys : SystemState) (pid : Int) (varName : String) :
    Option String × SystemState × List Event :=
  match findPCB sys pid with
  | none => (none, sys, [])
  | some pcb =>
      if varName = "" then
        (none, setPCB sys pid { pcb with state := .TERMINATED },
          [Event.log "Error: Attempt to get variable with empty name."])
      else
        match findVariableMemoryIndex sys pid varName false with
        | some i => (some (memGet sys i).value, sys, [])
        | none =>
            match findVariableMemoryIndex sys pid ("file_" ++ varName) false with
            | some i => (some (memGet sys i).value, sys, [])
            | none =>
                (none, setPCB sys pid { pcb with state := .TERMINATED },
                  [Event.log "Error: Variable not found."])

/-- do_print from simulator.c. -/
def do_print (sys : SystemState) (pid : Int) (varName : String) :
    SystemState × List Event :=
  let gv := getVariable sys pid varName
  match gv.1 with
  | some v => (gv.2.1, gv.2.2 ++ [Event.output pid v])
  | none => (gv.2.1, gv.2.2)

/-- do_assign from simulator.c (the request_input callback is registered in
the model, so `assign x input` always takes the pending-input branch). -/
def do_assign (sys : SystemState) (pid : Int) (varName : String)
    (valueOrSource : String) : SystemState × List Event :=
  match findPCB sys pid with
  | none => (sys, [])
  | some _ =>
      if valueOrSource = "input" then
        ({ sys with needsInput := true, inputVarName := varName.take 49, inputPid := pid },
          [Event.log "Process needs input for variable", Event.stateUpdate])
      else
        setVariable sys pid varName valueOrSource

/-- do_writeFile from simulator.c: an unopenable file terminates the process;
a successful open writes the data (recorded as an event). -/
def do_writeFile (sys : SystemState) (fs : HostFS) (pid : Int)
    (fileVar dataVar : String) : SystemState × List Event :=
  match findPCB sys pid with
  | none => (sys, [])
  | some _ =>
      let gf := getVariable sys pid fileVar
      match gf.1 with
      | none => (gf.2.1, gf.2.2)
      | some filename =>
          let gd := getVariable gf.2.1 pid dataVar
          match gd.1 with
          | none => (gd.2.1, gf.2.2 ++ gd.2.2)
          | some data =>
              if fs.writable filename then
                (gd.2.1, gf.2.2 ++ gd.2.2 ++
                  [Event.fileWrite filename data, Event.log "Process wrote to file"])
              else
                match findPCB gd.2.1 pid with
                | some pcb =>
                    (setPCB gd.2.1 pid { pcb with state := .TERMINATED },
                      gf.2.2 ++ gd.2.2 ++
                        [Event.log "Error: Cannot open file for writing. Terminating."])
                | none => (gd.2.1, gf.2.2 ++ gd.2.2)

/-- do_readFile from simulator.c: read the whole file into a 500-byte buffer
(truncating with a warning), then bind file_<fileVar> to the contents. -/
def do_readFile (sys : SystemState) (fs : HostFS) (pid : Int) (fileVar : String) :
    SystemState × List Event :=
  match findPCB sys pid with
  | none => (sys, [])
  | some _ =>
      let gf := getVariable sys pid fileVar
      match gf.1 with
      | none => (gf.2.1, gf.2.2)
      | some filename =>
          match fs.read filename with
          | none =>
              match findPCB gf.2.1 pid with
              | some pcb =>
                  (setPCB gf.2.1 pid { pcb with state := .TERMINATED },
                    gf.2.2 ++ [Event.log "Error: Cannot open file for reading. Terminating."])
              | none => (gf.2.1, gf.2.2)
          | some content =>
              let warnEv :=
                if 499 < content.length then
                  [Event.log "Warning: File content truncated during read."]
                else []
              let se := setVariable gf.2.1 pid ("file_" ++ fileVar) (content.take 499)
              (se.1, gf.2.2 ++ warnEv ++ se.2)

/-- do_printFromTo from simulator.c: both variables must parse fully as
integers (strtol with a full-consumption check, modelled by String.toInt?);
the inclusive range is emitted ascending, or descending when a > b. -/
def do_printFromTo (sys : SystemState) (pid : Int) (v1 v2 : String) :
    SystemState × List Event :=
  match findPCB sys pid with
  | none => (sys, [])
  | some _ =>
      let g1 := getVariable sys pid v1
      match g1.1 with
      | none => (g1.2.1, g1.2.2)
      | some s1 =>
          let g2 := getVariable g1.2.1 pid v2
          match g2.1 with
          | none => (g2.2.1, g1.2.2 ++ g2.2.2)
          | some s2 =>
              match strToIntQ s1, strToIntQ s2 with
              | some val1, some val2 =>
                  let nums : List Int :=
                    if val1 ≤ val2 then
                      (List.range (val2 - val1 + 1).toNat).map (fun i => val1 + i)
                    else
                      (List.range (val1 - val2 + 1).toNat).map (fun i => val1 - i)
                  (g2.2.1, g1.2.2 ++ g2.2.2 ++
                    [Event.output pid (String.mk (List.intercalate [' ']
                      (nums.map (fun i => (toString i).data))))])
              | _, _ =>
                  match findPCB g2.2.1 pid with
                  | some pcb =>
                      (setPCB g2.2.1 pid { pcb with state := .TERMINATED },
                        g1.2.2 ++ g2.2.2 ++
                          [Event.log "Error: printFromTo requires numeric values."])
                  | none => (g2.2.1, g1.2.2 ++ g2.2.2)

/-- Whether the PCB of `pid` currently has state `st`. -/
def pcbStateIs (sys : SystemState) (pid : Int) (st : ProcessState) : Bool :=
  match findPCB sys pid with
  | some p => decide (p.state = st)
  | none => false

/-- Outcome of the command-dispatch section of interpretInstruction:
the mutated state, the C locals `error` and `instruction_completed`, and the
emitted events. -/
structure DispatchResult where
  sys : SystemState
  error : Bool
  completed : Bool
  events : List Event

/-- Set the state of `pid` to TERMINATED (no-op when the PCB is missing). -/
def terminatePCB (sys : SystemState) (pid : Int) : SystemState :=
  match findPCB sys pid with
  | some p => setPCB sys pid { p with state := .TERMINATED }
  | none => sys

/-- The command dispatch of interpretInstruction (the if/else chain over the
tokenised line). -/
def dispatchCommand (sys : SystemState) (fs : HostFS) (pid : Int)
    (cmd a1 a2 a3 : Option String) : DispatchResult :=
  match cmd with
  | none => ⟨sys, false, true, [Event.log "NOP instruction"]⟩
  | some c =>
      if c = "print" then
        match a1 with
        | some x => let r := do_print sys pid x; ⟨r.1, false, true, r.2⟩
        | none => ⟨sys, true, true, []⟩
      else if c = "assign" then
        match a1, a2 with
        | some x, some src =>
            if src = "readFile" ∧ a3.isSome then
              let y := a3.getD ""
              let g := getVariable sys pid y
              match g.1 with
              | none => ⟨g.2.1, true, true, g.2.2⟩
              | some _ =>
                  let r := do_readFile g.2.1 fs pid y
                  if pcbStateIs r.1 pid .TERMINATED then
                    ⟨r.1, true, true, g.2.2 ++ r.2⟩
                  else
                    let g2 := getVariable r.1 pid ("file_" ++ y)
                    match g2.1 with
                    | none =>
                        ⟨g2.2.1, true, true, g.2.2 ++ r.2 ++ g2.2.2 ++
                          [Event.log "Error: readFile intermediate variable not found after read."]⟩
                    | some content =>
                        let sv := setVariable g2.2.1 pid x content
                        ⟨sv.1, pcbStateIs sv.1 pid .TERMINATED, true,
                          g.2.2 ++ r.2 ++ g2.2.2 ++ sv.2⟩
            else
              let r := do_assign sys pid x src
              let completed := !(r.1.needsInput && r.1.inputPid == pid)
              ⟨r.1, pcbStateIs r.1 pid .TERMINATED, completed, r.2⟩
        | _, _ =>
            ⟨sys, true, true,
              [Event.log "Error: assign requires variable name and value source."]⟩
      else if c = "writeFile" then
        match a1, a2 with
        | some f, some d => let r := do_writeFile sys fs pid f d; ⟨r.1, false, true, r.2⟩
        | _, _ => ⟨sys, true, true, []⟩
      else if c = "readFile" then
        match a1 with
        | some f => let r := do_readFile sys fs pid f; ⟨r.1, false, true, r.2⟩
        | none => ⟨sys, true, true, []⟩
      else if c = "printFromTo" then
        match a1, a2 with
        | some u, some v => let r := do_printFromTo sys pid u v; ⟨r.1, false, true, r.2⟩
        | _, _ => ⟨sys, true, true, []⟩
      else if c = "semWait" then
        match a1 with
        | some rn =>
            let r := do_semWait sys pid rn
            ⟨r.1, false, !pcbStateIs r.1 pid .BLOCKED, r.2⟩
        | none => ⟨sys, true, true, []⟩
      else if c = "semSignal" then
        match a1 with
        | some rn => let r := do_semSignal sys pid rn; ⟨r.1, false, true, r.2⟩
        | none => ⟨sys, true, true, []⟩
      else
        ⟨sys, true, true, [Event.log "Error: Unknown command"]⟩

/-- interpretInstruction from simulator.c: fetch, tokenise, dispatch, then
handle errors and PC advancement. -/
def interpretInstruction (sys : SystemState) (fs : HostFS) (pid : Int) :
    SystemState × List Event :=
  match findPCB sys pid with
  | none =>
      ({ sys with runningProcessID := -1 },
        [Event.log "Error: Attempting to interpret instruction for non-running process"])
  | some pcb =>
      if pcb.state ≠ .RUNNING then
        let sys1 := setPCB sys pid { pcb with state := .TERMINATED }
        ({ sys1 with runningProcessID := -1 },
          [Event.log "Error: Attempting to interpret instruction for non-running process"])
      else
        let instCount := findInstructionCount sys pid
        if instCount ≤ pcb.programCounter then
          (setPCB sys pid { pcb with state := .TERMINATED },
            [Event.log "Process reached end of program. Terminating."])
        else
          let memIdx := pcb.memoryLowerBound + pcb.programCounter
          if pcb.memoryUpperBound < memIdx then
            let sys1 := setPCB sys pid { pcb with state := .TERMINATED }
            ({ sys1 with runningProcessID := -1 },
              [Event.log "Error: Program Counter resulted in invalid memory index. Terminating."])
          else
            let line := (memGet sys memIdx).value
            let execLog := Event.log ("Executing: " ++ line)
            let tokens := strTokens line
            let d := dispatchCommand sys fs pid tokens[0]? tokens[1]? tokens[2]? tokens[3]?
            let e :=
              if d.error then
                (terminatePCB d.sys pid,
                  d.events ++ [Event.log "Error processing instruction. Terminating."], true)
              else (d.sys, d.events, d.completed)
            if pcbStateIs e.1 pid .RUNNING && e.2.2 then
              match findPCB e.1 pid with
              | some p =>
                  let p1 := { p with programCounter := p.programCounter + 1 }
                  let sysF := setPCB e.1 pid p1
                  let newInstCount := findInstructionCount sysF pid
                  if newInstCount ≤ p1.programCounter then
                    (setPCB sysF pid { p1 with state := .TERMINATED },
                      execLog :: e.2.1 ++
                        [Event.log "Process finished program after instruction. Terminating."])
                  else (sysF, execLog :: e.2.1)
              | none => (e.1, execLog :: e.2.1)
            else (e.1, execLog :: e.2.1)

/-- First loop of checkArrivals: clear the unblocked-this-cycle flag of every
READY process that carries it. -/
def checkArrivalsFlagsLoop (sys : SystemState) : List Nat → SystemState
  | [] => sys
  | i :: rest =>
      let sys' :=
        if sys.wasUnblockedThisCycle.getD i false ∧ pcbStateIs sys (i : Int) .READY then
          { sys with wasUnblockedThisCycle := sys.wasUnblockedThisCycle.set i false }
        else sys
      checkArrivalsFlagsLoop sys' rest

/-- Second loop of checkArrivals: every NEW process whose arrival time has
come becomes READY and is enqueued (MLFQ: level 0; else the FCFS/RR queue). -/
def checkArrivalsLoop (sys : SystemState) : List Nat → SystemState × List Event
  | [] => (sys, [])
  | i :: rest =>
      match sys.processTable[i]? with
      | some pcb =>
          if pcb.state = .NEW ∧ pcb.arrivalTime ≤ sys.clockCycle then
            let sys1 := setPCB sys (i : Int) { pcb with state := .READY }
            let ae :=
              if sys1.schedulerType = .MLFQ then addToMLFQ sys1 (i : Int) 0
              else addToReadyQueue sys1 (i : Int)
            let r := checkArrivalsLoop ae.1 rest
            (r.1, Event.log "Process arrived." :: ae.2 ++ [Event.stateUpdate] ++ r.2)
          else checkArrivalsLoop sys rest
      | none => checkArrivalsLoop sys rest

/-- checkArrivals from simulator.c. -/
def checkArrivals (sys : SystemState) : SystemState × List Event :=
  let sys1 := checkArrivalsFlagsLoop sys (List.range sys.processCount)
  checkArrivalsLoop sys1 (List.range sys1.processCount)

/-- isSimulationComplete from simulator.c.  The C function mutates: once the
all-terminated condition holds it latches `simulationComplete`, so the model
returns the (possibly updated) state alongside the boolean. -/
def isSimulationComplete (sys : SystemState) : Bool × SystemState :=
  if sys.processCount = 0 then (false, sys)
  else if sys.simulationComplete then (true, sys)
  else
    -- the C loop counts TERMINATED PCBs and compares with processCount
    let complete := sys.processTable.all (fun p => decide (p.state = .TERMINATED))
    if complete then (true, { sys with simulationComplete := true }) else (false, sys)

/-- Phase 2 of stepSimulation: quantum check / preemption.  Returns the state,
events, and the C local `needToSchedule`. -/
def quantumCheckPhase (sys : SystemState) : SystemState × List Event × Bool :=
  if 0 ≤ sys.runningProcessID then
    match findPCB sys sys.runningProcessID with
    | none =>
        ({ sys with runningProcessID := -1 },
          [Event.log "Warning: Running PID is not in RUNNING state. CPU becoming idle."],
          true)
    | some p =>
        if p.state ≠ .RUNNING then
          ({ sys with runningProcessID := -1 },
            [Event.log "Warning: Running PID is not in RUNNING state. CPU becoming idle."],
            true)
        else if sys.schedulerType = .RR ∧ p.quantumRemaining ≤ 0 then
          let sys1 := setPCB sys sys.runningProcessID { p with state := .READY }
          let ae := addToReadyQueue sys1 sys.runningProcessID
          ({ ae.1 with runningProcessID := -1 },
            Event.log "RR quantum expired." :: ae.2 ++ [Event.stateUpdate], true)
        else if sys.schedulerType = .MLFQ ∧ p.quantumRemaining ≤ 0 then
          let nextLevel :=
            if p.mlfqLevel < MLFQ_LEVELS - 1 then p.mlfqLevel + 1 else p.mlfqLevel
          let sys1 := setPCB sys sys.runningProcessID { p with state := .READY }
          let ae := addToMLFQ sys1 sys.runningProcessID nextLevel
          ({ ae.1 with runningProcessID := -1 },
            Event.log "MLFQ quantum expired." :: Event.log "Process demoted." ::
              ae.2 ++ [Event.stateUpdate], true)
        else (sys, [], false)
  else (sys, [], true)

/-- Phase 3 of stepSimulation: dispatch when the CPU is idle. -/
def dispatchPhase (sys : SystemState) (needToSchedule : Bool) :
    SystemState × List Event :=
  if needToSchedule && sys.runningProcessID < 0 then
    let sc := scheduleNextProcess sys
    if 0 ≤ sc.1 then
      let sys1 := { sc.2 with runningProcessID := sc.1 }
      match findPCB sys1 sc.1 with
      | some p =>
          let p1 := { p with
            state := .RUNNING,
            quantumRemaining :=
              if sys1.schedulerType = .RR then sys1.rrQuantum
              else if sys1.schedulerType = .MLFQ then sys1.mlfqQuantum.getD p.mlfqLevel 0
              else p.quantumRemaining }
          (setPCB sys1 sc.1 p1,
            [Event.log "Scheduler: Dispatching process", Event.stateUpdate])
      | none =>
          ({ sys1 with runningProcessID := -1 }, [Event.log "Error: Scheduled PID not found!"])
    else
      ({ sc.2 with runningProcessID := -1 },
        [Event.log "Scheduler: CPU Idle - No ready processes.", Event.stateUpdate])
  else (sys, [])

/-- Phase 4 of stepSimulation: decrement the quantum (RR/MLFQ) and execute one
instruction for the running process; on termination re-check completion and
idle the CPU. -/
def executePhase (sys : SystemState) (fs : HostFS) : SystemState × List Event :=
  if 0 ≤ sys.runningProcessID then
    let pid := sys.runningProcessID
    if pcbStateIs sys pid .RUNNING && !sys.needsInput then
      let sys1 :=
        if sys.schedulerType = .RR ∨ sys.schedulerType = .MLFQ then
          match findPCB sys pid with
          | some p => setPCB sys pid { p with quantumRemaining := p.quantumRemaining - 1 }
          | none => sys
        else sys
      let ie := interpretInstruction sys1 fs pid
      if pcbStateIs ie.1 pid .TERMINATED then
        let ce := isSimulationComplete ie.1
        ({ ce.2 with runningProcessID := -1 },
          ie.2 ++ [Event.log "Process terminated during execution.", Event.stateUpdate])
      else (ie.1, ie.2)
    else (sys, [])
  else (sys, [])

/-- stepSimulation from simulator.c: completion guard, flag reset, input
pause, then arrivals → quantum check → dispatch → execute → clock++ → final
completion check. -/
def stepSimulation (sys : SystemState) (fs : HostFS) : SystemState × List Event :=
  let c0 := isSimulationComplete sys
  if c0.1 then (c0.2, [Event.log "Simulation already complete."])
  else
    let sysB := { c0.2 with wasUnblockedThisCycle := List.replicate MAX_PROCESSES false }
    if sysB.needsInput then
      (sysB, [Event.log ("Simulation paused, waiting for input for P" ++
        toString sysB.inputPid ++ ".")])
    else
      let header := Event.log ("--- Clock Cycle " ++ toString sysB.clockCycle ++ " ---")
      let ca := checkArrivals sysB
      let qc := quantumCheckPhase ca.1
      let dp := dispatchPhase qc.1 qc.2.2
      let ex := executePhase dp.1 fs
      let sysC := { ex.1 with clockCycle := ex.1.clockCycle + 1 }
      let cf := isSimulationComplete sysC
      let evs := header :: ca.2 ++ qc.2.1 ++ dp.2 ++ ex.2
      if cf.1 then
        (cf.2, evs ++ [Event.log "Simulation Complete.", Event.stateUpdate])
      else (cf.2, evs)

/-- getProgramNumberFromFilename from simulator.c (strstr on the fixed
Program_N.txt names). -/
def getProgramNumberFromFilename (filename : String) : Int :=
  if ("Program_1.txt".data).IsInfix filename.data then 1
  else if ("Program_2.txt".data).IsInfix filename.data then 2
  else if ("Program_3.txt".data).IsInfix filename.data then 3
  else 0

/-- Whether a program line contains a non-whitespace character (the loader's
per-line check). -/
def lineNonWhitespace (l : String) : Bool :=
  l.data.any (fun ch => ch ≠ ' ' ∧ ch ≠ '\t' ∧ ch ≠ '\n' ∧ ch ≠ '\r')

/-- The instruction-loading loop of loadProgram: write the k-th instruction
line into memory word lb+k with its Inst_<pid>_<k> name tag. -/
def writeInstWords (pid : Int) (lb : Nat) (instLines : List String)
    (sys : SystemState) : SystemState :=
  instLines.enum.foldl
    (fun s kl => memSet s (lb + kl.1)
      ⟨("Inst_" ++ toString pid ++ "_" ++ toString kl.1).take 49, kl.2.take 49⟩)
    sys

/-- The variable-slot initialisation loop of loadProgram. -/
def initVarSlots (pid : Int) (start : Nat) (sys : SystemState) : SystemState :=
  (List.range NUM_VARIABLES).foldl
    (fun s i => memSet s (start + i)
      ⟨"Var_" ++ toString pid ++ "_Free" ++ toString i, ""⟩)
    sys

/-- The PCB-scratch-slot initialisation loop of loadProgram. -/
def initPcbSlots (pid : Int) (start : Nat) (sys : SystemState) : SystemState :=
  (List.range PCB_SIZE).foldl
    (fun s i => memSet s (start + i)
      ⟨"PCB_" ++ toString pid ++ "_Slot" ++ toString i, ""⟩)
    sys

/-- loadProgram from simulator.c, with the opened file's lines passed in
place of the FILE* (fopen success; fgets yields `lines`).  A file with no
non-whitespace line returns true without installing any process. -/
def loadProgram (sys : SystemState) (filename : String) (lines : List String) :
    Bool × SystemState × List Event :=
  if MAX_PROCESSES ≤ sys.processCount then
    (false, sys, [Event.log "Error: process table full"])
  else
    let count0 := (lines.filter lineNonWhitespace).length
    if count0 = 0 then
      (true, sys, [Event.log "Warning: file is empty or contains only whitespace."])
    else
      let truncEv :=
        if MAX_PROGRAM_LINES < count0 then [Event.log "Warning: lines truncated."] else []
      let count := min count0 MAX_PROGRAM_LINES
      let memNeeded := count + NUM_VARIABLES + PCB_SIZE
      if MEMORY_SIZE < sys.memoryPointer + memNeeded then
        (false, sys, truncEv ++ [Event.log "Error: Out of memory!"])
      else
        let lb := sys.memoryPointer
        let ub := lb + memNeeded - 1
        let pid : Int := sys.processCount
        let pcb : PCB :=
          { processID := pid
            programNumber := getProgramNumberFromFilename filename
            state := .NEW
            priority := 0
            programCounter := 0
            memoryLowerBound := lb
            memoryUpperBound := ub
            arrivalTime := sys.clockCycle
            blockedOnResource := none
            quantumRemaining := 0
            mlfqLevel := 0 }
        let sys1 := { sys with memoryPointer := lb + memNeeded }
        let instLines := ((lines.filter lineNonWhitespace).take count).map stripCRLF
        let sys2 := writeInstWords pid lb instLines sys1
        let sys3 := initVarSlots pid (lb + count) sys2
        let sys4 := initPcbSlots pid (lb + count + NUM_VARIABLES) sys3
        let sys5 := { sys4 with processTable := sys4.processTable ++ [pcb] }
        (true, sys5, truncEv ++ [Event.log "Loaded process", Event.stateUpdate])

/-- initializeSystem from simulator.c (memset to zero, then field setup; the
callback pointers live outside the modelled state). -/
def initializeSystem (type : SchedulerType) (rrQuantumVal : Int) :
    SystemState × List Event :=
  ({ memory := List.replicate MEMORY_SIZE ⟨"", ""⟩
     memoryPointer := 0
     processTable := []
     mutexes := List.replicate NUM_RESOURCES ⟨false, -1, []⟩
     readyQueue := []
     mlfqRQ := List.replicate MLFQ_LEVELS []
     runningProcessID := -1
     clockCycle := 0
     schedulerType := type
     rrQuantum := if type = .RR then (if 0 < rrQuantumVal then rrQuantumVal else 1) else 0
     mlfqQuantum := [1, 2, 4, 8]
     needsInput := false
     inputVarName := ""
     inputPid := 0
     simulationComplete := false
     wasUnblockedThisCycle := List.replicate MAX_PROCESSES false },
   [Event.log "System initialized", Event.stateUpdate])

/-! ### Frame lemmas: no operation below the driver touches the clock -/

@[simp] theorem setPCB_clock (sys : SystemState) (pid : Int) (pcb : PCB) :
    (setPCB sys pid pcb).clockCycle = sys.clockCycle := rfl

@[simp] theorem setMutex_clock (sys : SystemState) (r : ResourceType) (m : Mutex) :
    (setMutex sys r m).clockCycle = sys.clockCycle := rfl

@[simp] theorem memSet_clock (sys : SystemState) (i : Nat) (w : MemoryWord) :
    (memSet sys i w).clockCycle = sys.clockCycle := rfl

@[simp] theorem setMLFQ_clock (sys : SystemState) (level : Nat) (q : List Int) :
    (setMLFQ sys level q).clockCycle = sys.clockCycle := rfl

@[simp] theorem terminatePCB_clock (sys : SystemState) (pid : Int) :
    (terminatePCB sys pid).clockCycle = sys.clockCycle := by
  unfold terminatePCB; cases findPCB sys pid <;> simp

@[simp] theorem addToReadyQueue_clock (sys : SystemState) (pid : Int) :
    (addToReadyQueue sys pid).1.clockCycle = sys.clockCycle := by
  unfold addToReadyQueue; cases findPCB sys pid <;> simp <;> split <;> simp

@[simp] theorem addToMLFQGo_clock (sys : SystemState) (pid : Int) (level fuel : Nat) :
    (addToMLFQGo sys pid level fuel).1.clockCycle = sys.clockCycle := by
  induction fuel generalizing sys level with
  | zero => rfl
  | succ n ih =>
      unfold addToMLFQGo
      split
      · simp
      · split
        · split
          · simp [ih]
          · cases findPCB sys pid <;> simp
        · cases findPCB sys pid <;> simp

@[simp] theorem addToMLFQ_clock (sys : SystemState) (pid : Int) (level : Nat) :
    (addToMLFQ sys pid level).1.clockCycle = sys.clockCycle := by
  unfold addToMLFQ; simp

@[simp] theorem schedMLFQScan_clock (sys : SystemState) (lvls : List Nat) :
    (schedMLFQScan sys lvls).2.clockCycle = sys.clockCycle := by
  induction lvls generalizing sys with
  | nil => rfl
  | cons l rest ih =>
      unfold schedMLFQScan
      dsimp only
      split
      · simp [ih]
      · simp

@[simp] theorem scheduleNextProcess_clock (sys : SystemState) :
    (scheduleNextProcess sys).2.clockCycle = sys.clockCycle := by
  unfold scheduleNextProcess; split <;> simp

@[simp] theorem blockProcess_clock (sys : SystemState) (pid : Int) (r : ResourceType) :
    (blockProcess sys pid r).1.clockCycle = sys.clockCycle := by
  unfold blockProcess
  cases findPCB sys pid <;> simp
  split <;> split <;> simp

@[simp] theorem unblockProcess_clock (sys : SystemState) (r : ResourceType) :
    (unblockProcess sys r).1.clockCycle = sys.clockCycle := by
  unfold unblockProcess
  dsimp only
  repeat' split
  all_goals simp

@[simp] theorem do_semWait_clock (sys : SystemState) (pid : Int) (resName : String) :
    (do_semWait sys pid resName).1.clockCycle = sys.clockCycle := by
  unfold do_semWait
  cases findPCB sys pid <;> simp
  cases getResourceTypeFromString resName <;> simp
  split <;> simp

@[simp] theorem do_semSignal_clock (sys : SystemState) (pid : Int) (resName : String) :
    (do_semSignal sys pid resName).1.clockCycle = sys.clockCycle := by
  unfold do_semSignal
  cases findPCB sys pid <;> simp
  cases getResourceTypeFromString resName <;> simp
  split <;> split <;> simp

@[simp] theorem setVariable_clock (sys : SystemState) (pid : Int) (v val : String) :
    (setVariable sys pid v val).1.clockCycle = sys.clockCycle := by
  unfold setVariable
  cases findPCB sys pid <;> simp
  split
  · simp
  · cases findVariableMemoryIndex sys pid v true <;> simp

@[simp] theorem getVariable_clock (sys : SystemState) (pid : Int) (v : String) :
    (getVariable sys pid v).2.1.clockCycle = sys.clockCycle := by
  unfold getVariable
  cases findPCB sys pid <;> simp
  split
  · simp
  · cases findVariableMemoryIndex sys pid v false <;> simp
    cases findVariableMemoryIndex sys pid ("file_" ++ v) false <;> simp

@[simp] theorem do_print_clock (sys : SystemState) (pid : Int) (v : String) :
    (do_print sys pid v).1.clockCycle = sys.clockCycle := by
  unfold do_print
  dsimp only
  repeat' split
  all_goals simp

@[simp] theorem do_assign_clock (sys : SystemState) (pid : Int) (v s : String) :
    (do_assign sys pid v s).1.clockCycle = sys.clockCycle := by
  unfold do_assign
  cases findPCB sys pid <;> simp
  split <;> simp

@[simp] theorem do_writeFile_clock (sys : SystemState) (fs : HostFS) (pid : Int)
    (fv dv : String) : (do_writeFile sys fs pid fv dv).1.clockCycle = sys.clockCycle := by
  unfold do_writeFile
  cases findPCB sys pid <;> simp
  cases (getVariable sys pid fv).1 <;> simp
  cases (getVariable (getVariable sys pid fv).2.1 pid dv).1 <;> simp
  split
  · simp
  · split <;> simp

@[simp] theorem do_readFile_clock (sys : SystemState) (fs : HostFS) (pid : Int)
    (fv : String) : (do_readFile sys fs pid fv).1.clockCycle = sys.clockCycle := by
  unfold do_readFile
  cases findPCB sys pid <;> simp
  cases (getVariable sys pid fv).1 <;> simp
  split
  · split <;> simp
  · simp

@[simp] theorem do_printFromTo_clock (sys : SystemState) (pid : Int) (v1 v2 : String) :
    (do_printFromTo sys pid v1 v2).1.clockCycle = sys.clockCycle := by
  unfold do_printFromTo
  cases findPCB sys pid <;> simp
  cases (getVariable sys pid v1).1 <;> simp
  cases (getVariable (getVariable sys pid v1).2.1 pid v2).1 <;> simp
  split
  · simp
  · split <;> simp

@[simp] theorem dispatchCommand_clock (sys : SystemState) (fs : HostFS) (pid : Int)
    (cmd a1 a2 a3 : Option String) :
    (dispatchCommand sys fs pid cmd a1 a2 a3).sys.clockCycle = sys.clockCycle := by
  unfold dispatchCommand
  dsimp only
  repeat' split
  all_goals simp

@[simp] theorem interpretInstruction_clock (sys : SystemState) (fs : HostFS) (pid : Int) :
    (interpretInstruction sys fs pid).1.clockCycle = sys.clockCycle := by
  unfold interpretInstruction
  dsimp only
  repeat' split
  all_goals simp

@[simp] theorem checkArrivalsFlagsLoop_clock (sys : SystemState) (l : List Nat) :
    (checkArrivalsFlagsLoop sys l).clockCycle = sys.clockCycle := by
  induction l generalizing sys with
  | nil => rfl
  | cons i rest ih => unfold checkArrivalsFlagsLoop; split <;> simp [ih]

@[simp] theorem checkArrivalsLoop_clock (sys : SystemState) (l : List Nat) :
    (checkArrivalsLoop sys l).1.clockCycle = sys.clockCycle := by
  induction l generalizing sys with
  | nil => rfl
  | cons i rest ih =>
      unfold checkArrivalsLoop
      dsimp only
      repeat' split
      all_goals simp [ih]

@[simp] theorem checkArrivals_clock (sys : SystemState) :
    (checkArrivals sys).1.clockCycle = sys.clockCycle := by
  unfold checkArrivals; simp

@[simp] theorem isSimulationComplete_clock (sys : SystemState) :
    (isSimulationComplete sys).2.clockCycle = sys.clockCycle := by
  unfold isSimulationComplete
  dsimp only
  repeat' split
  all_goals rfl

@[simp] theorem isSimulationComplete_needsInput (sys : SystemState) :
    (isSimulationComplete sys).2.needsInput = sys.needsInput := by
  unfold isSimulationComplete
  dsimp only
  repeat' split
  all_goals rfl

@[simp] theorem quantumCheckPhase_clock (sys : SystemState) :
    (quantumCheckPhase sys).1.clockCycle = sys.clockCycle := by
  unfold quantumCheckPhase
  dsimp only
  repeat' split
  all_goals simp

@[simp] theorem dispatchPhase_clock (sys : SystemState) (need : Bool) :
    (dispatchPhase sys need).1.clockCycle = sys.clockCycle := by
  unfold dispatchPhase
  dsimp only
  repeat' split
  all_goals simp

@[simp] theorem executePhase_clock (sys : SystemState) (fs : HostFS) :
    (executePhase sys fs).1.clockCycle = sys.clockCycle := by
  unfold executePhase
  dsimp only
  repeat' split
  all_goals simp

/-! ### Helper lemmas about the completion check -/

/-- Full characterization of the completion check: true and a latched flag
when a process exists and the flag was latched or every PCB is TERMINATED,
false with the state untouched otherwise. -/
theorem isSimulationComplete_eq (sys : SystemState) :
    isSimulationComplete sys =
      (if 0 < sys.processCount ∧
          (sys.simulationComplete = true ∨ ∀ p ∈ sys.processTable, p.state = .TERMINATED)
       then (true, { sys with simulationComplete := true })
       else (false, sys)) := by
  have hall : (sys.processTable.all (fun p => decide (p.state = .TERMINATED)) = true) ↔
      (∀ p ∈ sys.processTable, p.state = .TERMINATED) := by
    simp [List.all_eq_true]
  unfold isSimulationComplete
  dsimp only
  rcases Nat.eq_zero_or_pos sys.processCount with hc | hc
  · rw [if_pos hc, if_neg (by omega)]
  · rw [if_neg (by omega)]
    by_cases hf : sys.simulationComplete = true
    · rw [if_pos hf, if_pos ⟨hc, Or.inl hf⟩]
      have he : { sys with simulationComplete := true } = sys := by
        cases sys
        simp_all
      rw [he]
    · rw [if_neg hf]
      by_cases ht : ∀ p ∈ sys.processTable, p.state = .TERMINATED
      · rw [if_pos (hall.mpr ht), if_pos ⟨hc, Or.inr ht⟩]
      · rw [if_neg (fun hh => ht (hall.mp hh)), if_neg (by tauto)]

/-- When the completion check reports false it has not mutated the state. -/
theorem isSimulationComplete_false_eq (sys : SystemState)
    (h : (isSimulationComplete sys).1 = false) : (isSimulationComplete sys).2 = sys := by
  rw [isSimulationComplete_eq] at h ⊢
  by_cases hcond : 0 < sys.processCount ∧
      (sys.simulationComplete = true ∨ ∀ p ∈ sys.processTable, p.state = .TERMINATED)
  · rw [if_pos hcond] at h
    simp at h
  · rw [if_neg hcond]

/-- When the completion flag is already latched (and a process exists) the
check returns true without mutating anything. -/
theorem isSimulationComplete_flagged (sys : SystemState)
    (h1 : sys.simulationComplete = true) (h2 : 0 < sys.processCount) :
    isSimulationComplete sys = (true, sys) := by
  rw [isSimulationComplete_eq, if_pos ⟨h2, Or.inl h1⟩]
  have he : { sys with simulationComplete := true } = sys := by
    cases sys
    simp_all
  rw [he]

/-! ### Concrete states used by witnesses and counterexamples -/

/-- A host filesystem with no readable or writable files. -/
def fsNone : HostFS := ⟨fun _ => none, fun _ => false⟩

/-- A small PCB for hand-built states. -/
def mkPCB (i : Int) (st : ProcessState) (prio lvl : Nat) : PCB :=
  { processID := i, programNumber := i, state := st, priority := prio,
    programCounter := 0, memoryLowerBound := 0, memoryUpperBound := 8,
    arrivalTime := 0, blockedOnResource := none, quantumRemaining := 0,
    mlfqLevel := lvl }

/-- A freshly initialized FCFS system. -/
def sInit0 : SystemState := (initializeSystem .FCFS 1).1

/-- One terminated process, completion flag not yet latched. -/
def sTermOne : SystemState :=
  { sInit0 with processTable := [mkPCB 0 .TERMINATED 0 0] }

/-- One terminated process with the completion flag latched. -/
def sFlagged : SystemState :=
  { sTermOne with simulationComplete := true }

/-- Pending input together with a leftover unblocked-this-cycle flag. -/
def sPaused : SystemState :=
  { sInit0 with
      needsInput := true
      inputPid := 0
      wasUnblockedThisCycle := true :: List.replicate 9 false }

/-! ### C2 -/

/-- C2 counterexample: with pending input set and a leftover
unblocked-this-cycle flag, stepSimulation does mutate the state (it clears
the flag array), so it is not a pure no-op. -/
theorem step_paused_not_pure :
    sPaused.needsInput = true ∧ (stepSimulation sPaused fsNone).1 ≠ sPaused := by
  decide

/-- C2 (amended): when pending input is set and the completion check reports
false, stepSimulation only clears the unblocked-this-cycle flags, leaves every
other component (including the clock) unchanged, and emits exactly the paused
notice. -/
theorem step_paused_spec (sys : SystemState) (fs : HostFS)
    (h1 : sys.needsInput = true) (h2 : (isSimulationComplete sys).1 = false) :
    stepSimulation sys fs =
      ({ sys with wasUnblockedThisCycle := List.replicate MAX_PROCESSES false },
        [Event.log ("Simulation paused, waiting for input for P" ++
          toString sys.inputPid ++ ".")]) := by
  unfold stepSimulation
  dsimp only
  rw [h2, isSimulationComplete_false_eq sys h2]
  simp [h1]

/-- C2 witness: the amended statement at the concrete paused state. -/
theorem step_paused_spec_witness :
    stepSimulation sPaused fsNone =
      ({ sPaused with wasUnblockedThisCycle := List.replicate MAX_PROCESSES false },
        [Event.log ("Simulation paused, waiting for input for P" ++
          toString sPaused.inputPid ++ ".")]) :=
  step_paused_spec sPaused fsNone (by decide) (by decide)

/-! ### C4 -/

/-- C4 counterexample: loading a file whose lines are all whitespace-only
returns true but installs no process at all (the claim says a process is
created and terminates on first dispatch). -/
theorem loadProgram_empty_no_process :
    (loadProgram sInit0 "p.txt" [" ", ""]).1 = true ∧
    (loadProgram sInit0 "p.txt" [" ", ""]).2.1.processCount = 0 := by
  decide

/-- C4 (amended): loading a program file with zero instruction lines (empty
or whitespace-only) succeeds with the state unchanged and only a warning
logged; no process is created. -/
theorem loadProgram_empty_spec (sys : SystemState) (filename : String)
    (lines : List String)
    (h1 : sys.processCount < MAX_PROCESSES)
    (h2 : ∀ l ∈ lines, lineNonWhitespace l = false) :
    loadProgram sys filename lines =
      (true, sys, [Event.log "Warning: file is empty or contains only whitespace."]) := by
  unfold loadProgram
  have hf : lines.filter lineNonWhitespace = [] := by
    simp [List.filter_eq_nil_iff]
    intro l hl
    simp [h2 l hl]
  rw [if_neg (by omega), hf]
  simp

/-- C4 witness: the amended statement at a concrete empty program. -/
theorem loadProgram_empty_spec_witness :
    loadProgram sInit0 "p.txt" [" ", ""] =
      (true, sInit0, [Event.log "Warning: file is empty or contains only whitespace."]) :=
  loadProgram_empty_spec sInit0 "p.txt" [" ", ""] (by decide) (by decide)

/-! ### C7 -/

/-- C7 counterexample: isSimulationComplete is not pure — on a state where
all processes are terminated but the flag is unlatched, the call mutates the
state by latching the completion flag. -/
theorem isSimulationComplete_not_pure :
    (isSimulationComplete sTermOne).2 ≠ sTermOne := by
  decide

/-- C7 (amended): isSimulationComplete returns true iff a process exists and
the completion flag is already latched or every PCB is TERMINATED; its only
mutation is latching the completion flag when it returns true. -/
theorem isSimulationComplete_spec (sys : SystemState) :
    isSimulationComplete sys =
      (if 0 < sys.processCount ∧
          (sys.simulationComplete = true ∨ ∀ p ∈ sys.processTable, p.state = .TERMINATED)
       then (true, { sys with simulationComplete := true })
       else (false, sys)) :=
  isSimulationComplete_eq sys

/-! ### C8 -/

/-- Iterated driver steps (for the across-any-sequence part of I7). -/
def stepIter (fs : HostFS) (sys : SystemState) : Nat → SystemState
  | 0 => sys
  | n + 1 => stepIter fs (stepSimulation sys fs).1 n

/-- One step changes the clock exactly as the driver's early returns allow:
+1 on a full cycle, unchanged when already complete or paused for input. -/
theorem stepSimulation_clock_eq (sys : SystemState) (fs : HostFS) :
    (stepSimulation sys fs).1.clockCycle =
      (if (isSimulationComplete sys).1 = false ∧ sys.needsInput = false
       then sys.clockCycle + 1 else sys.clockCycle) := by
  unfold stepSimulation
  dsimp only
  repeat' split
  all_goals simp_all

/-- C8 counterexample: a state that is not paused for input (the simulation
is merely complete) on which stepSimulation does not increment the clock,
refuting "increments by exactly 1 unless paused for input". -/
theorem step_clock_stuck_when_complete :
    sFlagged.needsInput = false ∧
    (stepSimulation sFlagged fsNone).1.clockCycle = sFlagged.clockCycle := by
  decide

/-- C8 (amended): the clock is monotonically non-decreasing across any
sequence of steps, and each individual step increments it by exactly 1 unless
the simulation is paused for input or already complete (in which case it is
unchanged). -/
theorem stepSimulation_clock_monotone (sys : SystemState) (fs : HostFS) (n : Nat) :
    sys.clockCycle ≤ (stepIter fs sys n).clockCycle ∧
    ((isSimulationComplete sys).1 = false → sys.needsInput = false →
      (stepSimulation sys fs).1.clockCycle = sys.clockCycle + 1) ∧
    ((isSimulationComplete sys).1 = true ∨ sys.needsInput = true →
      (stepSimulation sys fs).1.clockCycle = sys.clockCycle) := by
  refine ⟨?_, ?_, ?_⟩
  · induction n generalizing sys with
    | zero => exact le_refl _
    | succ k ih =>
        calc sys.clockCycle ≤ (stepSimulation sys fs).1.clockCycle := by
              rw [stepSimulation_clock_eq]; split <;> omega
          _ ≤ (stepIter fs (stepSimulation sys fs).1 k).clockCycle := ih _
  · intro h1 h2
    rw [stepSimulation_clock_eq]
    simp [h1, h2]
  · intro h
    rw [stepSimulation_clock_eq]
    rcases h with h | h <;> simp [h]

/-- C8 witness: the amended statement at a concrete non-complete state. -/
theorem stepSimulation_clock_monotone_witness :
    (stepSimulation sTermOne fsNone).1.clockCycle = sTermOne.clockCycle :=
  (stepSimulation_clock_monotone sTermOne fsNone 0).2.2 (Or.inl (by decide))

/-! ### C10 -/

/-- Generic preservation through the memory-writing folds of loadProgram. -/
theorem foldl_memSet_frame {A : Type} (g : SystemState → A → SystemState)
    (hg : ∀ s a, (g s a).processTable = s.processTable ∧
        (g s a).simulationComplete = s.simulationComplete) :
    ∀ (l : List A) (s : SystemState),
      (l.foldl g s).processTable = s.processTable ∧
      (l.foldl g s).simulationComplete = s.simulationComplete := by
  intro l
  induction l with
  | nil => intro s; exact ⟨rfl, rfl⟩
  | cons a rest ih =>
      intro s
      have h1 := hg s a
      have h2 := ih (g s a)
      exact ⟨h2.1.trans h1.1, h2.2.trans h1.2⟩

@[simp] theorem writeInstWords_frame (pid : Int) (lb : Nat) (ls : List String)
    (sys : SystemState) :
    (writeInstWords pid lb ls sys).processTable = sys.processTable ∧
    (writeInstWords pid lb ls sys).simulationComplete = sys.simulationComplete := by
  unfold writeInstWords
  apply foldl_memSet_frame
  intro s a
  exact ⟨rfl, rfl⟩

@[simp] theorem initVarSlots_frame (pid : Int) (start : Nat) (sys : SystemState) :
    (initVarSlots pid start sys).processTable = sys.processTable ∧
    (initVarSlots pid start sys).simulationComplete = sys.simulationComplete := by
  unfold initVarSlots
  apply foldl_memSet_frame
  intro s a
  exact ⟨rfl, rfl⟩

@[simp] theorem initPcbSlots_frame (pid : Int) (start : Nat) (sys : SystemState) :
    (initPcbSlots pid start sys).processTable = sys.processTable ∧
    (initPcbSlots pid start sys).simulationComplete = sys.simulationComplete := by
  unfold initPcbSlots
  apply foldl_memSet_frame
  intro s a
  exact ⟨rfl, rfl⟩

/-- loadProgram never clears the completion flag and never removes processes. -/
theorem loadProgram_flag_and_count (sys : SystemState) (filename : String)
    (lines : List String) :
    (loadProgram sys filename lines).2.1.simulationComplete = sys.simulationComplete ∧
    sys.processCount ≤ (loadProgram sys filename lines).2.1.processCount := by
  unfold loadProgram
  dsimp only
  repeat' split
  all_goals
    simp_all [SystemState.processCount, writeInstWords_frame, initVarSlots_frame,
      initPcbSlots_frame]

/-- C10: once the completion flag is latched (with at least one process),
isSimulationComplete keeps returning true without mutation, stepSimulation is
a no-op apart from the already-complete log, and even after loadProgram
installs a fresh (non-terminated) process the check still reports true. -/
theorem completion_flag_latched (sys : SystemState) (fs : HostFS)
    (filename : String) (lines : List String)
    (h1 : sys.simulationComplete = true) (h2 : 0 < sys.processCount) :
    isSimulationComplete sys = (true, sys) ∧
    stepSimulation sys fs = (sys, [Event.log "Simulation already complete."]) ∧
    (loadProgram sys filename lines).2.1.simulationComplete = true ∧
    (isSimulationComplete (loadProgram sys filename lines).2.1).1 = true := by
  have hc := isSimulationComplete_flagged sys h1 h2
  refine ⟨hc, ?_, ?_, ?_⟩
  · unfold stepSimulation
    dsimp only
    rw [hc]
    rfl
  · exact (loadProgram_flag_and_count sys filename lines).1.trans h1
  · have hflag := (loadProgram_flag_and_count sys filename lines).1.trans h1
    have hcount := (loadProgram_flag_and_count sys filename lines).2
    have := isSimulationComplete_flagged (loadProgram sys filename lines).2.1 hflag
      (lt_of_lt_of_le h2 hcount)
    rw [this]

/-- C10 witness: the statement at a concrete flagged state, loading a fresh
one-instruction program. -/
theorem completion_flag_latched_witness :
    (isSimulationComplete (loadProgram sFlagged "p.txt" ["print x"]).2.1).1 = true :=
  (completion_flag_latched sFlagged fsNone "p.txt" ["print x"]
    (by decide) (by decide)).2.2.2

/-! ### Frame lemmas for findPCB and getMutex -/

@[simp] theorem findPCB_setMutex (sys : SystemState) (r : ResourceType) (m : Mutex)
    (pid : Int) : findPCB (setMutex sys r m) pid = findPCB sys pid := rfl

@[simp] theorem findPCB_setMLFQ (sys : SystemState) (level : Nat) (q : List Int)
    (pid : Int) : findPCB (setMLFQ sys level q) pid = findPCB sys pid := rfl

@[simp] theorem findPCB_memSet (sys : SystemState) (i : Nat) (w : MemoryWord)
    (pid : Int) : findPCB (memSet sys i w) pid = findPCB sys pid := rfl

@[simp] theorem getMutex_setPCB (sys : SystemState) (pid : Int) (pcb : PCB)
    (r : ResourceType) : getMutex (setPCB sys pid pcb) r = getMutex sys r := rfl

@[simp] theorem getMutex_setMLFQ (sys : SystemState) (level : Nat) (q : List Int)
    (r : ResourceType) : getMutex (setMLFQ sys level q) r = getMutex sys r := rfl

theorem findPCB_setPCB_ne (sys : SystemState) (q pid : Int) (pcb : PCB)
    (h0 : 0 ≤ q) (hne : q ≠ pid) :
    findPCB (setPCB sys q pcb) pid = findPCB sys pid := by
  unfold findPCB setPCB SystemState.processCount
  simp only [List.length_set]
  rcases lt_or_le pid 0 with hp | hp
  · rw [if_neg (by omega), if_neg (by omega)]
  · have : q.toNat ≠ pid.toNat := by omega
    split
    · simp [List.getElem?_set_ne this]
    · rfl

theorem findPCB_setPCB_self (sys : SystemState) (q : Int) (pcb pcb' : PCB)
    (h : findPCB sys q = some pcb) :
    findPCB (setPCB sys q pcb') q = some pcb' := by
  unfold findPCB setPCB SystemState.processCount at *
  simp only [List.length_set]
  split at h
  · rename_i hq
    have hlt : q.toNat < sys.processTable.length := by omega
    rw [if_pos hq]
    simp [List.getElem?_set_self, hlt]
  · exact absurd h (by simp)

theorem getMutex_setMutex_self (sys : SystemState) (r : ResourceType) (m : Mutex)
    (hm : sys.mutexes.length = NUM_RESOURCES) :
    getMutex (setMutex sys r m) r = m := by
  obtain ⟨a, b, c, habc⟩ := List.length_eq_three.mp hm
  unfold getMutex setMutex
  rw [habc]
  cases r <;> rfl

theorem getMutex_setMutex_ne (sys : SystemState) (r r' : ResourceType) (m : Mutex)
    (hne : r ≠ r') : getMutex (setMutex sys r m) r' = getMutex sys r' := by
  unfold getMutex setMutex
  have : r.toIdx ≠ r'.toIdx := by
    cases r <;> cases r' <;> simp_all [ResourceType.toIdx]
  simp [List.getD, List.getElem?_set_ne this]

/-- setMutex preserves the mutex-array length. -/
@[simp] theorem setMutex_mutexes_length (sys : SystemState) (r : ResourceType)
    (m : Mutex) : (setMutex sys r m).mutexes.length = sys.mutexes.length := by
  unfold setMutex
  simp

/-! ### The priority dequeue: selection lemmas -/

/-- The priority of waiter `w` as dequeueMutexBlocked sees it. -/
def prioOf (sys : SystemState) (w : Int) : Nat :=
  match findPCB sys w with
  | some pcb => pcb.priority
  | none => 9999

/-- The best-waiter scan returns either its accumulator or a queue member. -/
theorem findBestWaiter_mem (sys : SystemState) :
    ∀ (q : List Int) (b : Int × Nat),
      (findBestWaiter sys q b).1 = b.1 ∨ (findBestWaiter sys q b).1 ∈ q := by
  intro q
  induction q with
  | nil => intro b; exact Or.inl rfl
  | cons w rest ih =>
      intro b
      unfold findBestWaiter
      cases h : findPCB sys w with
      | some pcb =>
          dsimp only
          split
          · rcases ih (w, pcb.priority) with h1 | h1
            · exact Or.inr (by simp [h1])
            · exact Or.inr (List.mem_cons_of_mem _ h1)
          · rcases ih b with h1 | h1
            · exact Or.inl h1
            · exact Or.inr (List.mem_cons_of_mem _ h1)
      | none =>
          rcases ih b with h1 | h1
          · exact Or.inl h1
          · exact Or.inr (List.mem_cons_of_mem _ h1)

/-- Full characterisation of the best-waiter scan: it either keeps its
accumulator (nothing strictly better) or returns the first waiter achieving
the minimum priority, strictly below the accumulator. -/
theorem findBestWaiter_spec (sys : SystemState) :
    ∀ (q : List Int) (b : Int × Nat), b.2 ≤ 9999 →
      (findBestWaiter sys q b).2 ≤ b.2 ∧
      (∀ w ∈ q, (findBestWaiter sys q b).2 ≤ prioOf sys w) ∧
      ((findBestWaiter sys q b = b ∧ ∀ w ∈ q, b.2 ≤ prioOf sys w) ∨
        ((findBestWaiter sys q b).2 = prioOf sys (findBestWaiter sys q b).1 ∧
          (findBestWaiter sys q b).2 < b.2 ∧
          ∃ pre post, q = pre ++ (findBestWaiter sys q b).1 :: post ∧
            ∀ w ∈ pre, (findBestWaiter sys q b).2 < prioOf sys w)) := by
  intro q
  induction q with
  | nil =>
      intro b hb
      exact ⟨le_refl _, by simp, Or.inl ⟨rfl, by simp⟩⟩
  | cons w rest ih =>
      intro b hb
      have hred : findBestWaiter sys (w :: rest) b =
          (match findPCB sys w with
           | some pcb =>
               if pcb.priority < b.2 then findBestWaiter sys rest (w, pcb.priority)
               else findBestWaiter sys rest b
           | none => findBestWaiter sys rest b) := rfl
      cases h : findPCB sys w with
      | some pcb =>
          have hpw : prioOf sys w = pcb.priority := by unfold prioOf; rw [h]
          rw [hred, h]
          dsimp only
          by_cases hlt : pcb.priority < b.2
          · rw [if_pos hlt]
            obtain ⟨ih1, ih2, ih3⟩ := ih (w, pcb.priority) (by omega)
            refine ⟨le_trans ih1 (le_of_lt hlt), ?_, ?_⟩
            · intro v hv
              rcases List.mem_cons.mp hv with hveq | hv
              · subst hveq; rw [hpw]; exact ih1
              · exact ih2 v hv
            · rcases ih3 with ⟨heq, hall⟩ | ⟨hself, hlt2, pre, post, hsplit, hpre⟩
              · refine Or.inr ⟨?_, ?_, [], rest, ?_, by simp⟩
                · rw [heq, hpw]
                · rw [heq]; exact hlt
                · rw [heq]; simp
              · refine Or.inr ⟨hself, lt_trans hlt2 hlt, w :: pre, post, ?_, ?_⟩
                · exact congrArg (List.cons w) hsplit
                · intro v hv
                  rcases List.mem_cons.mp hv with hveq | hv
                  · subst hveq; rw [hpw]; exact hlt2
                  · exact hpre v hv
          · rw [if_neg hlt]
            push_neg at hlt
            obtain ⟨ih1, ih2, ih3⟩ := ih b hb
            refine ⟨ih1, ?_, ?_⟩
            · intro v hv
              rcases List.mem_cons.mp hv with hveq | hv
              · subst hveq; rw [hpw]; exact le_trans ih1 hlt
              · exact ih2 v hv
            · rcases ih3 with ⟨heq, hall⟩ | ⟨hself, hlt2, pre, post, hsplit, hpre⟩
              · refine Or.inl ⟨heq, fun v hv => ?_⟩
                rcases List.mem_cons.mp hv with hveq | hv
                · subst hveq; rw [hpw]; exact hlt
                · exact hall v hv
              · refine Or.inr ⟨hself, hlt2, w :: pre, post, ?_, ?_⟩
                · exact congrArg (List.cons w) hsplit
                · intro v hv
                  rcases List.mem_cons.mp hv with hveq | hv
                  · subst hveq; rw [hpw]; exact lt_of_lt_of_le hlt2 hlt
                  · exact hpre v hv
      | none =>
          have hpw : prioOf sys w = 9999 := by unfold prioOf; rw [h]
          rw [hred, h]
          obtain ⟨ih1, ih2, ih3⟩ := ih b hb
          refine ⟨ih1, ?_, ?_⟩
          · intro v hv
            rcases List.mem_cons.mp hv with hveq | hv
            · subst hveq; rw [hpw]; exact le_trans ih1 hb
            · exact ih2 v hv
          · rcases ih3 with ⟨heq, hall⟩ | ⟨hself, hlt2, pre, post, hsplit, hpre⟩
            · refine Or.inl ⟨heq, fun v hv => ?_⟩
              rcases List.mem_cons.mp hv with hveq | hv
              · subst hveq; rw [hpw]; exact hb
              · exact hall v hv
            · refine Or.inr ⟨hself, hlt2, w :: pre, post, ?_, ?_⟩
              · exact congrArg (List.cons w) hsplit
              · intro v hv
                rcases List.mem_cons.mp hv with hveq | hv
                · subst hveq; rw [hpw]; exact lt_of_lt_of_le hlt2 hb
                · exact hpre v hv

/-- A pid with a PCB is a valid nonnegative table index. -/
theorem findPCB_some_nonneg (sys : SystemState) (v : Int) (p : PCB)
    (h : findPCB sys v = some p) : 0 ≤ v := by
  unfold findPCB at h
  split at h
  · omega
  · exact absurd h (by simp)

/-- Characterisation of dequeueMutexBlocked on a non-empty queue of valid
waiters: it removes exactly the first waiter of minimal priority and keeps
the remaining waiters in their original relative order. -/
theorem dequeueMutexBlocked_spec (sys : SystemState) (m : Mutex)
    (hne : m.blockedQueue ≠ [])
    (hv : ∀ v ∈ m.blockedQueue, ∃ p, findPCB sys v = some p ∧ p.priority < 9999)
    (hnd : m.blockedQueue.Nodup) :
    ∃ pre post,
      m.blockedQueue = pre ++ (dequeueMutexBlocked sys m).1 :: post ∧
      (∀ v ∈ pre, prioOf sys (dequeueMutexBlocked sys m).1 < prioOf sys v) ∧
      (∀ v ∈ m.blockedQueue, prioOf sys (dequeueMutexBlocked sys m).1 ≤ prioOf sys v) ∧
      (dequeueMutexBlocked sys m).2.1 = { m with blockedQueue := pre ++ post } ∧
      (dequeueMutexBlocked sys m).2.2 = [] := by
  obtain ⟨lk, hold, bq⟩ := m
  dsimp only at hne hv hnd ⊢
  cases hbq : bq with
  | nil => exact absurd hbq hne
  | cons p rest =>
      subst hbq
      obtain ⟨h1, h2, h3⟩ := findBestWaiter_spec sys (p :: rest) (-1, 9999) (le_refl _)
      set F := findBestWaiter sys (p :: rest) (-1, 9999) with hF
      have hprioP : prioOf sys p < 9999 := by
        obtain ⟨pc, hpc, hlt⟩ := hv p (List.mem_cons_self _ _)
        unfold prioOf
        rw [hpc]
        exact hlt
      rcases h3 with ⟨heq, hall⟩ | ⟨hself, hlt9, pre, post, hsplit, hpre⟩
      · exact absurd (hall p (List.mem_cons_self _ _)) (by omega)
      · have hmem : F.1 ∈ p :: rest := by
          rw [hsplit]
          exact List.mem_append_right _ (List.mem_cons_self _ _)
        obtain ⟨pcW, hpcW, _⟩ := hv _ hmem
        have hnn : 0 ≤ F.1 := findPCB_some_nonneg sys _ _ hpcW
        have hbestne : F.1 ≠ -1 := by omega
        have hdq : dequeueMutexBlocked sys ⟨lk, hold, p :: rest⟩ =
            (F.1, ⟨lk, hold, pre ++ post⟩, []) := by
          unfold dequeueMutexBlocked
          dsimp only
          rw [← hF, if_neg hbestne]
          by_cases hhead : F.1 = p
          · rw [if_pos hhead]
            have hpre0 : pre = [] := by
              cases hpre0 : pre with
              | nil => rfl
              | cons a pa =>
                  exfalso
                  rw [hpre0] at hsplit
                  have htail : rest = pa ++ F.1 :: post := by
                    have := congrArg List.tail hsplit
                    simpa using this
                  have hpin : p ∈ rest := by
                    rw [htail, ← hhead]
                    exact List.mem_append_right _ (List.mem_cons_self _ _)
                  exact (List.nodup_cons.mp hnd).1 hpin
            subst hpre0
            have hpost : rest = post := by
              have := congrArg List.tail hsplit
              simpa using this
            rw [hhead, hpost]
            rfl
          · rw [if_neg hhead]
            have hnd2 : (pre ++ F.1 :: post).Nodup := by rw [← hsplit]; exact hnd
            have hnotpre : ∀ v ∈ pre, ¬(v = F.1) := by
              intro v hvp hveq
              exact (List.nodup_append.mp hnd2).2.2 hvp
                (by rw [hveq]; exact List.mem_cons_self _ _)
            have hnotpost : ∀ v ∈ post, ¬(v = F.1) := by
              intro v hvp hveq
              have hx := (List.nodup_cons.mp (List.nodup_append.mp hnd2).2.1).1
              rw [← hveq] at hx
              exact hx hvp
            have hfil : List.filter (fun q => decide (q ≠ F.1)) (p :: rest) = pre ++ post := by
              rw [hsplit, List.filter_append, List.filter_cons]
              rw [List.filter_eq_self.mpr (fun v hvp => by simpa using hnotpre v hvp),
                List.filter_eq_self.mpr (fun v hvp => by simpa using hnotpost v hvp)]
              simp
            rw [hfil]
        refine ⟨pre, post, ?_, ?_, ?_, ?_, ?_⟩
        · rw [hdq]
          exact hsplit
        · intro v hvp
          rw [hdq]
          have := hpre v hvp
          rw [hself] at this
          exact this
        · intro v hvq
          rw [hdq]
          have := h2 v hvq
          rw [hself] at this
          exact this
        · rw [hdq]
        · rw [hdq]

@[simp] theorem findPCB_setFlags (sys : SystemState) (L : List Bool) (pid : Int) :
    findPCB { sys with wasUnblockedThisCycle := L } pid = findPCB sys pid := rfl

@[simp] theorem getMutex_setFlags (sys : SystemState) (L : List Bool) (r : ResourceType) :
    getMutex { sys with wasUnblockedThisCycle := L } r = getMutex sys r := rfl

@[simp] theorem getMLFQ_setFlags (sys : SystemState) (L : List Bool) (level : Nat) :
    getMLFQ { sys with wasUnblockedThisCycle := L } level = getMLFQ sys level := rfl

@[simp] theorem getMLFQ_setPCB (sys : SystemState) (pid : Int) (pcb : PCB) (level : Nat) :
    getMLFQ (setPCB sys pid pcb) level = getMLFQ sys level := rfl

@[simp] theorem getMLFQ_setMutex (sys : SystemState) (r : ResourceType) (m : Mutex)
    (level : Nat) : getMLFQ (setMutex sys r m) level = getMLFQ sys level := rfl

theorem getMLFQ_setMLFQ_self (sys : SystemState) (level : Nat) (q : List Int)
    (h : level < sys.mlfqRQ.length) : getMLFQ (setMLFQ sys level q) level = q := by
  unfold getMLFQ setMLFQ
  simp [List.getD, List.getElem?_set_self, h]

/-- addToReadyQueue on a non-full queue with a live PCB: mark READY, append. -/
theorem addToReadyQueue_ok (sys : SystemState) (pid : Int) (pcb : PCB)
    (hpcb : findPCB sys pid = some pcb)
    (hcap : sys.readyQueue.length < MAX_QUEUE_SIZE) :
    addToReadyQueue sys pid =
      ({ setPCB sys pid { pcb with state := .READY } with
          readyQueue := sys.readyQueue ++ [pid] }, []) := by
  unfold addToReadyQueue
  rw [hpcb]
  dsimp only
  rw [if_neg (by omega)]
  rfl

/-- addToMLFQ on a valid non-full level with a live PCB: mark READY, stamp
level and priority, append at that level. -/
theorem addToMLFQ_ok (sys : SystemState) (pid : Int) (pcb : PCB) (level : Nat)
    (hpcb : findPCB sys pid = some pcb)
    (hlev : level < MLFQ_LEVELS)
    (hcap : (getMLFQ sys level).length < MAX_QUEUE_SIZE) :
    addToMLFQ sys pid level =
      (setMLFQ
        (setPCB sys pid { pcb with state := .READY, mlfqLevel := level, priority := level })
        level (getMLFQ sys level ++ [pid]), []) := by
  unfold addToMLFQ
  rw [show MLFQ_LEVELS = 3 + 1 from rfl]
  unfold addToMLFQGo
  rw [if_neg (by omega), if_neg (by omega), hpcb]
  rfl

@[simp] theorem findPCB_setRQ (sys : SystemState) (q : List Int) (pid : Int) :
    findPCB { sys with readyQueue := q } pid = findPCB sys pid := rfl

@[simp] theorem getMutex_setRQ (sys : SystemState) (q : List Int) (r : ResourceType) :
    getMutex { sys with readyQueue := q } r = getMutex sys r := rfl

/-- C1: on a well-formed state, unblock(r) on a non-empty waiter list removes
exactly the first waiter of numerically smallest recorded priority (FIFO
tie-break), keeps the remaining waiters in order, marks it READY, clears its
blocked resource, sets its unblocked-this-cycle flag, and enqueues it at its
recorded mlfqLevel under MLFQ or into the FCFS/RR queue otherwise, leaving
every other PCB untouched; on an empty waiter list it changes nothing. -/
theorem unblockProcess_spec (sys : SystemState) (r : ResourceType)
    (hm : sys.mutexes.length = NUM_RESOURCES)
    (hq4 : sys.mlfqRQ.length = MLFQ_LEVELS)
    (hwb : sys.wasUnblockedThisCycle.length = MAX_PROCESSES)
    (hpc : sys.processCount ≤ MAX_PROCESSES)
    (hcap : sys.readyQueue.length < MAX_QUEUE_SIZE)
    (hv : ∀ v ∈ (getMutex sys r).blockedQueue, ∃ p, findPCB sys v = some p ∧
      p.priority < 9999 ∧ p.mlfqLevel < MLFQ_LEVELS ∧
      (getMLFQ sys p.mlfqLevel).length < MAX_QUEUE_SIZE)
    (hnd : (getMutex sys r).blockedQueue.Nodup) :
    ((getMutex sys r).blockedQueue = [] → unblockProcess sys r = (sys, [])) ∧
    ((getMutex sys r).blockedQueue ≠ [] →
      ∃ w pcbW pre post,
        findPCB sys w = some pcbW ∧
        (getMutex sys r).blockedQueue = pre ++ w :: post ∧
        (∀ v ∈ pre, ∀ pv, findPCB sys v = some pv → pcbW.priority < pv.priority) ∧
        (∀ v ∈ (getMutex sys r).blockedQueue, ∀ pv, findPCB sys v = some pv →
          pcbW.priority ≤ pv.priority) ∧
        (getMutex (unblockProcess sys r).1 r).blockedQueue = pre ++ post ∧
        (∃ pcbW2, findPCB (unblockProcess sys r).1 w = some pcbW2 ∧
          pcbW2.state = .READY ∧ pcbW2.blockedOnResource = none ∧
          pcbW2.mlfqLevel = pcbW.mlfqLevel) ∧
        (unblockProcess sys r).1.wasUnblockedThisCycle.getD w.toNat false = true ∧
        (sys.schedulerType = .MLFQ →
          getMLFQ (unblockProcess sys r).1 pcbW.mlfqLevel =
            getMLFQ sys pcbW.mlfqLevel ++ [w]) ∧
        (sys.schedulerType ≠ .MLFQ →
          (unblockProcess sys r).1.readyQueue = sys.readyQueue ++ [w]) ∧
        (∀ v, v ≠ w → findPCB (unblockProcess sys r).1 v = findPCB sys v)) := by
  constructor
  · intro hempty
    unfold unblockProcess
    rw [if_pos hempty]
  · intro hne
    obtain ⟨pre, post, hsplit, hpremin, hmin, hdqm, hdqe⟩ :=
      dequeueMutexBlocked_spec sys (getMutex sys r) hne
        (fun v hv2 => (hv v hv2).imp (fun p hp => ⟨hp.1, hp.2.1⟩)) hnd
    set D := dequeueMutexBlocked sys (getMutex sys r) with hD
    have hwmem : D.1 ∈ (getMutex sys r).blockedQueue := by
      rw [hsplit]
      exact List.mem_append_right _ (List.mem_cons_self _ _)
    obtain ⟨pcbW, hpcbW, hp9999, hlev, hlcap⟩ := hv D.1 hwmem
    have hnn : 0 ≤ D.1 := findPCB_some_nonneg sys _ _ hpcbW
    have hwlt : D.1 < (sys.processCount : Int) := by
      unfold findPCB at hpcbW
      split at hpcbW
      · omega
      · exact absurd hpcbW (by simp)
    set pcbR : PCB := { pcbW with state := .READY, blockedOnResource := none } with hpcbR
    set sys1 : SystemState := setMutex sys r D.2.1 with hsys1
    set sys2 : SystemState := setPCB sys1 D.1 pcbR with hsys2
    set sys3 : SystemState :=
      { sys2 with wasUnblockedThisCycle := sys2.wasUnblockedThisCycle.set D.1.toNat true }
      with hsys3
    have hf1 : findPCB sys1 D.1 = some pcbW := by rw [hsys1, findPCB_setMutex]; exact hpcbW
    have hf3 : findPCB sys3 D.1 = some pcbR := by
      rw [hsys3, findPCB_setFlags, hsys2]
      exact findPCB_setPCB_self sys1 D.1 pcbW pcbR hf1
    have hf3ne : ∀ v, v ≠ D.1 → findPCB sys3 v = findPCB sys v := by
      intro v hvne
      rw [hsys3, findPCB_setFlags, hsys2,
        findPCB_setPCB_ne sys1 D.1 v pcbR hnn (fun h => hvne h.symm), hsys1, findPCB_setMutex]
    have hmux3 : getMutex sys3 r = D.2.1 := by
      rw [hsys3, getMutex_setFlags, hsys2, getMutex_setPCB, hsys1]
      exact getMutex_setMutex_self sys r D.2.1 hm
    have hmlfq3 : ∀ lv, getMLFQ sys3 lv = getMLFQ sys lv := by
      intro lv
      rw [hsys3, getMLFQ_setFlags, hsys2, getMLFQ_setPCB, hsys1, getMLFQ_setMutex]
    have hq43 : sys3.mlfqRQ.length = MLFQ_LEVELS := by
      rw [hsys3, hsys2, hsys1]
      simpa using hq4
    have hun1 : unblockProcess sys r =
        ((if sys.schedulerType = .MLFQ then addToMLFQ sys3 D.1 pcbW.mlfqLevel
          else addToReadyQueue sys3 D.1).1,
         D.2.2 ++ (if sys.schedulerType = .MLFQ then addToMLFQ sys3 D.1 pcbW.mlfqLevel
          else addToReadyQueue sys3 D.1).2 ++
          [Event.log "Process UNBLOCKED from resource, added to ready queue.",
            Event.stateUpdate]) := by
      unfold unblockProcess
      dsimp only
      rw [← hD, if_neg hne, if_neg (show ¬(D.1 < 0) by omega), ← hsys1, hf1]
      dsimp only
      rw [← hpcbR, ← hsys2, ← hsys3]
      rfl
    refine ⟨D.1, pcbW, pre, post, hpcbW, hsplit, ?_, ?_, ?_, ?_, ?_, ?_, ?_, ?_⟩
    · intro v hv2 pv hpv
      have := hpremin v hv2
      unfold prioOf at this
      rw [hpcbW, hpv] at this
      exact this
    · intro v hv2 pv hpv
      have := hmin v hv2
      unfold prioOf at this
      rw [hpcbW, hpv] at this
      exact this
    · -- mutex waiter queue after unblock
      rw [hun1]
      by_cases hsch : sys.schedulerType = .MLFQ
      · rw [if_pos hsch,
          addToMLFQ_ok sys3 D.1 pcbR pcbW.mlfqLevel hf3 hlev (by rw [hmlfq3]; exact hlcap)]
        dsimp only
        rw [getMutex_setMLFQ, getMutex_setPCB, hmux3, hdqm]
      · rw [if_neg hsch,
          addToReadyQueue_ok sys3 D.1 pcbR (by exact hf3) (by rw [hsys3, hsys2, hsys1]; simpa using hcap)]
        dsimp only
        rw [getMutex_setRQ, getMutex_setPCB, hmux3, hdqm]
    · -- the woken PCB
      rw [hun1]
      by_cases hsch : sys.schedulerType = .MLFQ
      · rw [if_pos hsch,
          addToMLFQ_ok sys3 D.1 pcbR pcbW.mlfqLevel hf3 hlev (by rw [hmlfq3]; exact hlcap)]
        dsimp only
        refine ⟨{ pcbR with state := .READY, mlfqLevel := pcbW.mlfqLevel, priority := pcbW.mlfqLevel },
          ?_, rfl, by rw [hpcbR], rfl⟩
        rw [findPCB_setMLFQ]
        exact findPCB_setPCB_self sys3 D.1 pcbR _ hf3
      · rw [if_neg hsch,
          addToReadyQueue_ok sys3 D.1 pcbR (by exact hf3) (by rw [hsys3, hsys2, hsys1]; simpa using hcap)]
        dsimp only
        refine ⟨{ pcbR with state := .READY }, ?_, rfl, by rw [hpcbR], by rw [hpcbR]⟩
        rw [findPCB_setRQ]
        exact findPCB_setPCB_self sys3 D.1 pcbR _ hf3
    · -- the unblocked-this-cycle flag
      rw [hun1]
      have hlen : D.1.toNat < sys.wasUnblockedThisCycle.length := by
        rw [hwb]
        unfold SystemState.processCount at hpc hwlt
        omega
      have hflags : ∀ (s' : SystemState), s'.wasUnblockedThisCycle =
          sys.wasUnblockedThisCycle.set D.1.toNat true →
          s'.wasUnblockedThisCycle.getD D.1.toNat false = true := by
        intro s' hs'
        rw [hs']
        simp [List.getD, List.getElem?_set_self, hlen]
      by_cases hsch : sys.schedulerType = .MLFQ
      · rw [if_pos hsch,
          addToMLFQ_ok sys3 D.1 pcbR pcbW.mlfqLevel hf3 hlev (by rw [hmlfq3]; exact hlcap)]
        dsimp only
        exact hflags _ (by rw [hsys3, hsys2, hsys1]; rfl)
      · rw [if_neg hsch,
          addToReadyQueue_ok sys3 D.1 pcbR (by exact hf3) (by rw [hsys3, hsys2, hsys1]; simpa using hcap)]
        dsimp only
        exact hflags _ (by rw [hsys3, hsys2, hsys1]; rfl)
    · -- MLFQ enqueue at the recorded level
      intro hsch
      rw [hun1, if_pos hsch,
        addToMLFQ_ok sys3 D.1 pcbR pcbW.mlfqLevel hf3 hlev (by rw [hmlfq3]; exact hlcap)]
      dsimp only
      rw [getMLFQ_setMLFQ_self _ _ _ (by exact lt_of_lt_of_eq hlev hq43.symm), hmlfq3]
    · -- FCFS/RR enqueue
      intro hsch
      rw [hun1, if_neg hsch,
        addToReadyQueue_ok sys3 D.1 pcbR (by exact hf3) (by rw [hsys3, hsys2, hsys1]; simpa using hcap)]
      rfl
    · -- other PCBs untouched
      intro v hvne
      rw [hun1]
      by_cases hsch : sys.schedulerType = .MLFQ
      · rw [if_pos hsch,
          addToMLFQ_ok sys3 D.1 pcbR pcbW.mlfqLevel hf3 hlev (by rw [hmlfq3]; exact hlcap)]
        dsimp only
        rw [findPCB_setMLFQ, findPCB_setPCB_ne sys3 D.1 v _ hnn (fun h => hvne h.symm)]
        exact hf3ne v hvne
      · rw [if_neg hsch,
          addToReadyQueue_ok sys3 D.1 pcbR (by exact hf3) (by rw [hsys3, hsys2, hsys1]; simpa using hcap)]
        dsimp only
        rw [findPCB_setRQ, findPCB_setPCB_ne sys3 D.1 v _ hnn (fun h => hvne h.symm)]
        exact hf3ne v hvne

/-- A running holder of the file mutex with three blocked waiters of
priorities 2, 1, 1: the unblock contest must pick pid 2 (smallest priority,
FIFO tie-break over pid 3). -/
def sMutexDemo : SystemState :=
  { sInit0 with
      processTable := [mkPCB 0 .RUNNING 0 0, mkPCB 1 .BLOCKED 2 0,
        mkPCB 2 .BLOCKED 1 0, mkPCB 3 .BLOCKED 1 0]
      mutexes := [⟨true, 0, [1, 2, 3]⟩, ⟨false, -1, []⟩, ⟨false, -1, []⟩]
      runningProcessID := 0 }

/-- C1 witness: the priority-unblock theorem applied at the concrete
contended state. -/
theorem unblockProcess_spec_witness :
    ∃ w pcbW pre post,
      findPCB sMutexDemo w = some pcbW ∧
      (getMutex sMutexDemo .RESOURCE_FILE).blockedQueue = pre ++ w :: post ∧
      (∀ v ∈ pre, ∀ pv, findPCB sMutexDemo v = some pv → pcbW.priority < pv.priority) ∧
      (∀ v ∈ (getMutex sMutexDemo .RESOURCE_FILE).blockedQueue, ∀ pv,
        findPCB sMutexDemo v = some pv → pcbW.priority ≤ pv.priority) ∧
      (getMutex (unblockProcess sMutexDemo .RESOURCE_FILE).1 .RESOURCE_FILE).blockedQueue =
        pre ++ post ∧
      (∃ pcbW2, findPCB (unblockProcess sMutexDemo .RESOURCE_FILE).1 w = some pcbW2 ∧
        pcbW2.state = .READY ∧ pcbW2.blockedOnResource = none ∧
        pcbW2.mlfqLevel = pcbW.mlfqLevel) ∧
      (unblockProcess sMutexDemo .RESOURCE_FILE).1.wasUnblockedThisCycle.getD w.toNat false
        = true ∧
      (sMutexDemo.schedulerType = .MLFQ →
        getMLFQ (unblockProcess sMutexDemo .RESOURCE_FILE).1 pcbW.mlfqLevel =
          getMLFQ sMutexDemo pcbW.mlfqLevel ++ [w]) ∧
      (sMutexDemo.schedulerType ≠ .MLFQ →
        (unblockProcess sMutexDemo .RESOURCE_FILE).1.readyQueue =
          sMutexDemo.readyQueue ++ [w]) ∧
      (∀ v, v ≠ w → findPCB (unblockProcess sMutexDemo .RESOURCE_FILE).1 v =
        findPCB sMutexDemo v) :=
  (unblockProcess_spec sMutexDemo .RESOURCE_FILE (by decide) (by decide) (by decide)
    (by decide) (by decide) (by decide) (by decide)).2 (by decide)

/-! ### Frame lemmas shared by the mutex-invariant and semSignal theorems -/

@[simp] theorem getMutex_setRunning (sys : SystemState) (p : Int) (r : ResourceType) :
    getMutex { sys with runningProcessID := p } r = getMutex sys r := rfl

@[simp] theorem findPCB_setRunning (sys : SystemState) (p : Int) (pid : Int) :
    findPCB { sys with runningProcessID := p } pid = findPCB sys pid := rfl

/-- The priority dequeue always hands back a queue member. -/
theorem dequeueMutexBlocked_mem (sys : SystemState) (m : Mutex)
    (hne : m.blockedQueue ≠ []) :
    (dequeueMutexBlocked sys m).1 ∈ m.blockedQueue := by
  unfold dequeueMutexBlocked
  match hq : m.blockedQueue with
  | [] => exact absurd hq hne
  | p :: rest =>
      dsimp only
      split
      · exact List.mem_cons_self _ _
      · rename_i hno
        rcases findBestWaiter_mem sys (p :: rest) (-1, 9999) with h | h
        · exact absurd h hno
        · split <;> exact h

/-- The priority dequeue never touches the lock fields. -/
theorem dequeueMutexBlocked_fields (sys : SystemState) (m : Mutex) :
    (dequeueMutexBlocked sys m).2.1.locked = m.locked ∧
    (dequeueMutexBlocked sys m).2.1.lockingProcessID = m.lockingProcessID := by
  unfold dequeueMutexBlocked
  match hq : m.blockedQueue with
  | [] => exact ⟨rfl, rfl⟩
  | p :: rest =>
      dsimp only
      repeat' split
      all_goals exact ⟨rfl, rfl⟩

theorem addToReadyQueue_findPCB_ne (sys : SystemState) (w v : Int)
    (h0 : 0 ≤ w) (hne : w ≠ v) :
    findPCB (addToReadyQueue sys w).1 v = findPCB sys v := by
  unfold addToReadyQueue
  cases h : findPCB sys w with
  | none => rfl
  | some pcb =>
      dsimp only
      split
      · exact findPCB_setPCB_ne sys w v _ h0 hne
      · rw [findPCB_setRQ]
        exact findPCB_setPCB_ne sys w v _ h0 hne

theorem addToMLFQGo_findPCB_ne (sys : SystemState) (w v : Int) (level fuel : Nat)
    (h0 : 0 ≤ w) (hne : w ≠ v) :
    findPCB (addToMLFQGo sys w level fuel).1 v = findPCB sys v := by
  induction fuel generalizing sys level with
  | zero => rfl
  | succ n ih =>
      unfold addToMLFQGo
      split
      · rfl
      · split
        · split
          · dsimp only
            exact ih sys (level + 1)
          · cases h : findPCB sys w with
            | none => rfl
            | some pcb =>
                dsimp only
                exact findPCB_setPCB_ne sys w v _ h0 hne
        · cases h : findPCB sys w with
          | none => rfl
          | some pcb =>
              dsimp only
              rw [findPCB_setMLFQ]
              exact findPCB_setPCB_ne sys w v _ h0 hne

theorem addToMLFQ_findPCB_ne (sys : SystemState) (w v : Int) (level : Nat)
    (h0 : 0 ≤ w) (hne : w ≠ v) :
    findPCB (addToMLFQ sys w level).1 v = findPCB sys v :=
  addToMLFQGo_findPCB_ne sys w v level MLFQ_LEVELS h0 hne

theorem getMutex_addToReadyQueue (sys : SystemState) (w : Int) (r : ResourceType) :
    getMutex (addToReadyQueue sys w).1 r = getMutex sys r := by
  unfold addToReadyQueue
  cases h : findPCB sys w with
  | none => rfl
  | some pcb =>
      dsimp only
      split <;> rfl

theorem getMutex_addToMLFQGo (sys : SystemState) (w : Int) (level fuel : Nat)
    (r : ResourceType) : getMutex (addToMLFQGo sys w level fuel).1 r = getMutex sys r := by
  induction fuel generalizing sys level with
  | zero => rfl
  | succ n ih =>
      unfold addToMLFQGo
      split
      · rfl
      · split
        · split
          · dsimp only
            exact ih sys (level + 1)
          · cases h : findPCB sys w with
            | none => rfl
            | some pcb => rfl
        · cases h : findPCB sys w with
          | none => rfl
          | some pcb => rfl

theorem getMutex_addToMLFQ (sys : SystemState) (w : Int) (level : Nat)
    (r : ResourceType) : getMutex (addToMLFQ sys w level).1 r = getMutex sys r :=
  getMutex_addToMLFQGo sys w level MLFQ_LEVELS r

/-- unblockProcess does not change any PCB other than the waiter it wakes;
with no waiter containing `v`, `v`'s PCB is untouched. -/
theorem unblockProcess_findPCB_notin (sys : SystemState) (r : ResourceType) (v : Int)
    (hv : ∀ u ∈ (getMutex sys r).blockedQueue, ∃ p, findPCB sys u = some p)
    (hnotin : v ∉ (getMutex sys r).blockedQueue) :
    findPCB (unblockProcess sys r).1 v = findPCB sys v := by
  unfold unblockProcess
  dsimp only
  split
  · rfl
  · rename_i hne
    have hmem := dequeueMutexBlocked_mem sys (getMutex sys r) hne
    have hvne : (dequeueMutexBlocked sys (getMutex sys r)).1 ≠ v :=
      fun h => hnotin (h ▸ hmem)
    obtain ⟨pw, hpw⟩ := hv _ hmem
    have h0 : 0 ≤ (dequeueMutexBlocked sys (getMutex sys r)).1 :=
      findPCB_some_nonneg sys _ _ hpw
    split
    · rfl
    · rw [findPCB_setMutex] at *
      rw [hpw]
      dsimp only
      split
      · rename_i hsch
        rw [addToMLFQ_findPCB_ne _ _ _ _ h0 hvne, findPCB_setFlags,
          findPCB_setPCB_ne _ _ _ _ h0 hvne, findPCB_setMutex]
      · rw [addToReadyQueue_findPCB_ne _ _ _ h0 hvne, findPCB_setFlags,
          findPCB_setPCB_ne _ _ _ _ h0 hvne, findPCB_setMutex]

/-- unblockProcess keeps the lock fields of its resource, only shrinks the
waiter queue, and leaves other mutexes alone. -/
theorem unblockProcess_mutex_fields (sys : SystemState) (r : ResourceType)
    (hm : sys.mutexes.length = NUM_RESOURCES) :
    (getMutex (unblockProcess sys r).1 r).locked = (getMutex sys r).locked ∧
    (getMutex (unblockProcess sys r).1 r).lockingProcessID =
      (getMutex sys r).lockingProcessID ∧
    ((getMutex sys r).blockedQueue ≠ [] →
      (getMutex (unblockProcess sys r).1 r).blockedQueue =
        (dequeueMutexBlocked sys (getMutex sys r)).2.1.blockedQueue) ∧
    (∀ r', r' ≠ r → getMutex (unblockProcess sys r).1 r' = getMutex sys r') := by
  have hself := getMutex_setMutex_self sys r
    (dequeueMutexBlocked sys (getMutex sys r)).2.1 hm
  have hfields := dequeueMutexBlocked_fields sys (getMutex sys r)
  unfold unblockProcess
  dsimp only
  split
  · exact ⟨rfl, rfl, fun h => absurd (by assumption) h, fun r' _ => rfl⟩
  · rename_i hne
    split
    · rw [hself]
      exact ⟨hfields.1, hfields.2, fun _ => rfl,
        fun r' hr' => getMutex_setMutex_ne sys r r' _ (fun h => hr' h.symm)⟩
    · rw [findPCB_setMutex]
      cases hp : findPCB sys (dequeueMutexBlocked sys (getMutex sys r)).1 with
      | none =>
          rw [hself]
          exact ⟨hfields.1, hfields.2, fun _ => rfl,
            fun r' hr' => getMutex_setMutex_ne sys r r' _ (fun h => hr' h.symm)⟩
      | some pcbw =>
          dsimp only
          split
          · rw [getMutex_addToMLFQ, getMutex_setFlags, getMutex_setPCB, hself]
            refine ⟨hfields.1, hfields.2, fun _ => rfl, fun r' hr' => ?_⟩
            rw [getMutex_addToMLFQ, getMutex_setFlags, getMutex_setPCB,
              getMutex_setMutex_ne sys r r' _ (fun h => hr' h.symm)]
          · rw [getMutex_addToReadyQueue, getMutex_setFlags, getMutex_setPCB, hself]
            refine ⟨hfields.1, hfields.2, fun _ => rfl, fun r' hr' => ?_⟩
            rw [getMutex_addToReadyQueue, getMutex_setFlags, getMutex_setPCB,
              getMutex_setMutex_ne sys r r' _ (fun h => hr' h.symm)]

/-! ### C3 -/

/-- Invariant I5: locked iff the holder names a pid, and the holder is never
in its own mutex's waiter list. -/
def MutexInv (sys : SystemState) : Prop :=
  ∀ r : ResourceType,
    ((getMutex sys r).locked = true ↔ 0 ≤ (getMutex sys r).lockingProcessID) ∧
    (0 ≤ (getMutex sys r).lockingProcessID →
      (getMutex sys r).lockingProcessID ∉ (getMutex sys r).blockedQueue)

/-- A FCFS system with one loaded program that waits twice on the file mutex. -/
def sSelfWait : SystemState :=
  (loadProgram sInit0 "p.txt" ["semWait file", "semWait file"]).2.1

set_option maxRecDepth 20000 in
/-- C3 counterexample: after two driver steps of a program whose running
holder executes semWait again on the resource it already holds, the holder
sits in its own mutex's waiter list while still being the recorded holder —
invariant I5 is violated on a reachable state. -/
theorem semWait_self_violates_inv :
    (getMutex (stepIter fsNone sSelfWait 2) .RESOURCE_FILE).locked = true ∧
    (getMutex (stepIter fsNone sSelfWait 2) .RESOURCE_FILE).lockingProcessID = 0 ∧
    (0 : Int) ∈ (getMutex (stepIter fsNone sSelfWait 2) .RESOURCE_FILE).blockedQueue := by
  decide

/-- Conditionally idling the CPU does not touch the mutex array. -/
theorem getMutex_runningIf (c : Prop) [Decidable c] (X : SystemState) (p : Int)
    (r : ResourceType) :
    getMutex (if c then { X with runningProcessID := p } else X) r = getMutex X r := by
  split <;> rfl

/-- What blockProcess does to the mutex array: other mutexes untouched, the
target keeps its lock fields, and its waiter list gains at most the blocked
pid. -/
theorem blockProcess_getMutex (sys : SystemState) (pid : Int) (r : ResourceType)
    (hm : sys.mutexes.length = NUM_RESOURCES) :
    (∀ r', r' ≠ r → getMutex (blockProcess sys pid r).1 r' = getMutex sys r') ∧
    ((getMutex (blockProcess sys pid r).1 r).locked = (getMutex sys r).locked ∧
      (getMutex (blockProcess sys pid r).1 r).lockingProcessID =
        (getMutex sys r).lockingProcessID) ∧
    (∀ v, v ∈ (getMutex (blockProcess sys pid r).1 r).blockedQueue →
      v ∈ (getMutex sys r).blockedQueue ∨ v = pid) := by
  unfold blockProcess
  cases hp : findPCB sys pid with
  | none => exact ⟨fun r' _ => rfl, ⟨rfl, rfl⟩, fun v hv => Or.inl hv⟩
  | some pcb =>
      dsimp only
      by_cases hfull : MAX_QUEUE_SIZE ≤ (getMutex sys r).blockedQueue.length
      · have henq : enqueueMutexBlocked (getMutex sys r) pid = (false, getMutex sys r) := by
          unfold enqueueMutexBlocked
          rw [if_pos hfull]
        rw [henq]
        dsimp only
        rw [if_pos rfl]
        refine ⟨fun r' _ => ?_, ⟨?_, ?_⟩, fun v hv => ?_⟩
        · rw [getMutex_runningIf, getMutex_setPCB]
        · rw [getMutex_runningIf, getMutex_setPCB]
        · rw [getMutex_runningIf, getMutex_setPCB]
        · rw [getMutex_runningIf, getMutex_setPCB] at hv
          exact Or.inl hv
      · have henq : enqueueMutexBlocked (getMutex sys r) pid =
            (true, { getMutex sys r with
              blockedQueue := (getMutex sys r).blockedQueue ++ [pid] }) := by
          unfold enqueueMutexBlocked
          rw [if_neg hfull]
        rw [henq]
        dsimp only
        rw [if_neg (by simp)]
        have hself := getMutex_setMutex_self sys r
          { getMutex sys r with blockedQueue := (getMutex sys r).blockedQueue ++ [pid] } hm
        refine ⟨fun r' hrr => ?_, ⟨?_, ?_⟩, fun v hv => ?_⟩
        · rw [getMutex_runningIf, getMutex_setPCB,
            getMutex_setMutex_ne _ _ _ _ (fun h => hrr h.symm)]
        · rw [getMutex_runningIf, getMutex_setPCB, hself]
        · rw [getMutex_runningIf, getMutex_setPCB, hself]
        · rw [getMutex_runningIf, getMutex_setPCB, hself] at hv
          dsimp only at hv
          rcases List.mem_append.mp hv with h1 | h1
          · exact Or.inl h1
          · exact Or.inr (List.mem_singleton.mp h1)

/-- blockProcess preserves I5 as long as the blocking pid is not the holder. -/
theorem blockProcess_mutexInv (sys : SystemState) (pid : Int) (r : ResourceType)
    (hm : sys.mutexes.length = NUM_RESOURCES)
    (hinv : MutexInv sys)
    (hhold : (getMutex sys r).lockingProcessID ≠ pid) :
    MutexInv (blockProcess sys pid r).1 := by
  obtain ⟨hne', hfields, hqueue⟩ := blockProcess_getMutex sys pid r hm
  intro r'
  by_cases hrr : r' = r
  · subst hrr
    constructor
    · rw [hfields.1, hfields.2]
      exact (hinv r').1
    · intro hh hmem
      rw [hfields.2] at hh hmem
      rcases hqueue _ hmem with h1 | h1
      · exact (hinv r').2 hh h1
      · exact hhold h1
  · rw [hne' r' hrr]
    exact hinv r'

/-- MutexInv only reads the mutex array, so setPCB does not affect it. -/
theorem mutexInv_setPCB (sys : SystemState) (pid : Int) (pcb : PCB) :
    MutexInv (setPCB sys pid pcb) ↔ MutexInv sys := by
  unfold MutexInv
  simp

/-- C3 (amended): the lock/holder invariant is preserved unconditionally by
any semSignal — including the holder legally releasing a contended mutex and
waking a waiter — and by any semWait whose caller is neither the recorded
holder nor already a waiter of that resource; a holder re-waiting enqueues
itself into its own waiter list while remaining the holder (see the
counterexample), so that one scenario must be excluded. -/
theorem mutexInv_preserved (sys : SystemState) (pid : Int) (resName : String)
    (hm : sys.mutexes.length = NUM_RESOURCES)
    (hinv : MutexInv sys) :
    ((∀ r, getResourceTypeFromString resName = some r →
        (getMutex sys r).lockingProcessID ≠ pid ∧ pid ∉ (getMutex sys r).blockedQueue) →
      MutexInv (do_semWait sys pid resName).1) ∧
    MutexInv (do_semSignal sys pid resName).1 := by
  constructor
  · intro hwait
    unfold do_semWait
    cases hp : findPCB sys pid with
    | none => exact hinv
    | some pcb =>
        dsimp only
        cases hr : getResourceTypeFromString resName with
        | none =>
            intro r'
            simpa using hinv r'
        | some r =>
            dsimp only
            have hwr := hwait r hr
            split
            · -- locked: the process records its priority and blocks
              exact blockProcess_mutexInv _ pid r (by simpa [setPCB] using hm)
                ((mutexInv_setPCB _ _ _).mpr hinv)
                (by rw [getMutex_setPCB]; exact hwr.1)
            · -- unlocked: acquire
              intro r'
              by_cases hrr : r' = r
              · subst hrr
                rw [getMutex_setMutex_self _ _ _ hm]
                dsimp only
                refine ⟨by simpa using findPCB_some_nonneg sys pid pcb hp, fun _ => hwr.2⟩
              · rw [getMutex_setMutex_ne _ _ _ _ (fun h => hrr h.symm)]
                exact hinv r'
  · cases hp : findPCB sys pid with
    | none =>
        unfold do_semSignal
        rw [hp]
        exact hinv
    | some pcb =>
        cases hr : getResourceTypeFromString resName with
        | none =>
            unfold do_semSignal
            rw [hp]
            dsimp only
            rw [hr]
            intro r'
            simpa using hinv r'
        | some r =>
            have hredS : (do_semSignal sys pid resName).1 =
                (if (getMutex sys r).locked = true ∧ (getMutex sys r).lockingProcessID = pid
                 then (unblockProcess (setMutex sys r
                    { getMutex sys r with locked := false, lockingProcessID := -1 }) r).1
                 else setPCB sys pid { pcb with state := .TERMINATED }) := by
              unfold do_semSignal
              rw [hp]
              dsimp only
              rw [hr]
              dsimp only
              by_cases hlegal : (getMutex sys r).locked = true ∧
                  (getMutex sys r).lockingProcessID = pid
              · rw [if_pos hlegal, if_pos hlegal]
                dsimp only
                split <;> rfl
              · rw [if_neg hlegal, if_neg hlegal]
                dsimp only
                split <;> rfl
            rw [hredS]
            split
            · rename_i hlegal
              set sysRel := setMutex sys r
                { getMutex sys r with locked := false, lockingProcessID := -1 } with hrel
              have hmrel : sysRel.mutexes.length = NUM_RESOURCES := by
                rw [hrel]
                simpa using hm
              obtain ⟨hlk, hhold, _, hother⟩ := unblockProcess_mutex_fields sysRel r hmrel
              intro r'
              by_cases hrr : r' = r
              · subst hrr
                rw [hlk, hhold, hrel, getMutex_setMutex_self _ _ _ hm]
                dsimp only
                exact ⟨by simp, fun hh => absurd hh (by simp)⟩
              · rw [hother r' hrr, hrel,
                  getMutex_setMutex_ne _ _ _ _ (fun h => hrr h.symm)]
                exact hinv r'
            · intro r'
              rw [getMutex_setPCB]
              exact hinv r'

/-- C3 witness: the preservation theorem applied at the contended demo state,
once for a non-holder executing semWait on userInput and once for the holder
(pid 0) legally releasing the contended file mutex, waking a waiter. -/
theorem mutexInv_preserved_witness :
    MutexInv (do_semWait sMutexDemo 1 "userInput").1 ∧
    MutexInv (do_semSignal sMutexDemo 0 "file").1 :=
  ⟨(mutexInv_preserved sMutexDemo 1 "userInput" (by decide)
      (by intro r; cases r <;> exact ⟨by decide, by decide⟩)).1
    (by
      intro r hr
      cases r
      · exact absurd hr (by decide)
      · exact ⟨by decide, by decide⟩
      · exact absurd hr (by decide)),
   (mutexInv_preserved sMutexDemo 0 "file" (by decide)
      (by intro r; cases r <;> exact ⟨by decide, by decide⟩)).2⟩

/-! ### C9 -/

/-- The state component of do_semSignal: release-and-unblock when the caller
holds the lock, termination otherwise. -/
theorem do_semSignal_reduce (sys : SystemState) (pid : Int) (resName : String)
    (r : ResourceType) (pcb : PCB)
    (hpcb : findPCB sys pid = some pcb)
    (hres : getResourceTypeFromString resName = some r) :
    (do_semSignal sys pid resName).1 =
      (if (getMutex sys r).locked = true ∧ (getMutex sys r).lockingProcessID = pid
       then (unblockProcess (setMutex sys r
          { getMutex sys r with locked := false, lockingProcessID := -1 }) r).1
       else setPCB sys pid { pcb with state := .TERMINATED }) := by
  unfold do_semSignal
  rw [hpcb]
  dsimp only
  rw [hres]
  dsimp only
  by_cases hlegal : (getMutex sys r).locked = true ∧
      (getMutex sys r).lockingProcessID = pid
  · rw [if_pos hlegal, if_pos hlegal]
    dsimp only
    split <;> rfl
  · rw [if_neg hlegal, if_neg hlegal]
    dsimp only
    split <;> rfl

/-- C9: semSignal terminates the caller iff the mutex is unlocked or held by
another process; otherwise it clears the lock and holder, a signal with no
waiters releases the mutex changing nothing else, and a signal with waiters
removes exactly one waiter from the wait list. -/
theorem do_semSignal_spec (sys : SystemState) (pid : Int) (resName : String)
    (r : ResourceType) (pcb : PCB)
    (hm : sys.mutexes.length = NUM_RESOURCES)
    (hpcb : findPCB sys pid = some pcb)
    (hrun : pcb.state = .RUNNING)
    (hres : getResourceTypeFromString resName = some r)
    (hnotin : pid ∉ (getMutex sys r).blockedQueue)
    (hv : ∀ v ∈ (getMutex sys r).blockedQueue, ∃ p, findPCB sys v = some p) :
    (pcbStateIs (do_semSignal sys pid resName).1 pid .TERMINATED = true ↔
      ¬((getMutex sys r).locked = true ∧ (getMutex sys r).lockingProcessID = pid)) ∧
    (((getMutex sys r).locked = true ∧ (getMutex sys r).lockingProcessID = pid) →
      (getMutex (do_semSignal sys pid resName).1 r).locked = false ∧
      (getMutex (do_semSignal sys pid resName).1 r).lockingProcessID = -1) ∧
    (((getMutex sys r).locked = true ∧ (getMutex sys r).lockingProcessID = pid) →
      (getMutex sys r).blockedQueue = [] →
      (do_semSignal sys pid resName).1 =
        setMutex sys r { getMutex sys r with locked := false, lockingProcessID := -1 }) ∧
    (((getMutex sys r).locked = true ∧ (getMutex sys r).lockingProcessID = pid) →
      (getMutex sys r).blockedQueue ≠ [] →
      (getMutex sys r).blockedQueue.Nodup →
      (∀ v ∈ (getMutex sys r).blockedQueue, ∃ p, findPCB sys v = some p ∧
        p.priority < 9999) →
      (getMutex (do_semSignal sys pid resName).1 r).blockedQueue.length + 1 =
        (getMutex sys r).blockedQueue.length) := by
  have hred := do_semSignal_reduce sys pid resName r pcb hpcb hres
  set sysRel := setMutex sys r
    { getMutex sys r with locked := false, lockingProcessID := -1 } with hrel
  have hmrel : sysRel.mutexes.length = NUM_RESOURCES := by
    rw [hrel]
    simpa using hm
  have hgrel : getMutex sysRel r =
      { getMutex sys r with locked := false, lockingProcessID := -1 } := by
    rw [hrel]
    exact getMutex_setMutex_self _ _ _ hm
  refine ⟨?_, ?_, ?_, ?_⟩
  · rw [hred]
    by_cases hlegal : (getMutex sys r).locked = true ∧
        (getMutex sys r).lockingProcessID = pid
    · rw [if_pos hlegal]
      have hvrel : ∀ u ∈ (getMutex sysRel r).blockedQueue, ∃ p, findPCB sysRel u = some p := by
        rw [hgrel]
        intro u hu
        obtain ⟨p, hp⟩ := hv u hu
        refine ⟨p, ?_⟩
        rw [hrel, findPCB_setMutex]
        exact hp
      have hnotinrel : pid ∉ (getMutex sysRel r).blockedQueue := by
        rw [hgrel]
        exact hnotin
      have hfp : findPCB (unblockProcess sysRel r).1 pid = some pcb := by
        rw [unblockProcess_findPCB_notin sysRel r pid hvrel hnotinrel, hrel, findPCB_setMutex]
        exact hpcb
      unfold pcbStateIs
      rw [hfp]
      dsimp only
      rw [hrun]
      simp [hlegal]
    · rw [if_neg hlegal]
      unfold pcbStateIs
      rw [findPCB_setPCB_self sys pid pcb _ hpcb]
      simp [hlegal]
  · intro hlegal
    rw [hred, if_pos hlegal]
    obtain ⟨hlk, hhold, _, _⟩ := unblockProcess_mutex_fields sysRel r hmrel
    rw [hlk, hhold, hgrel]
    exact ⟨rfl, rfl⟩
  · intro hlegal hempty
    rw [hred, if_pos hlegal]
    have : unblockProcess sysRel r = (sysRel, []) := by
      unfold unblockProcess
      dsimp only
      rw [if_pos (by rw [hgrel]; exact hempty)]
    rw [this, hrel]
  · intro hlegal hnone hnd hv9
    rw [hred, if_pos hlegal]
    obtain ⟨_, _, hqueue, _⟩ := unblockProcess_mutex_fields sysRel r hmrel
    have hqrel : (getMutex sysRel r).blockedQueue = (getMutex sys r).blockedQueue := by
      rw [hgrel]
    obtain ⟨pre, post, hsplit, _, _, hdqm, _⟩ :=
      dequeueMutexBlocked_spec sysRel (getMutex sysRel r)
        (by rw [hqrel]; exact hnone)
        (by
          rw [hqrel]
          intro v hv2
          obtain ⟨p, hp, h9⟩ := hv9 v hv2
          exact ⟨p, by rw [hrel, findPCB_setMutex]; exact hp, h9⟩)
        (by rw [hqrel]; exact hnd)
    rw [hqueue (by rw [hqrel]; exact hnone), hdqm]
    dsimp only
    rw [hqrel] at hsplit
    rw [hsplit]
    simp
    omega

/-- C9 witness: the semSignal theorem applied to the demo holder releasing
the contended file mutex. -/
theorem do_semSignal_spec_witness :
    (pcbStateIs (do_semSignal sMutexDemo 0 "file").1 0 .TERMINATED = true ↔
      ¬((getMutex sMutexDemo .RESOURCE_FILE).locked = true ∧
        (getMutex sMutexDemo .RESOURCE_FILE).lockingProcessID = 0)) ∧
    (((getMutex sMutexDemo .RESOURCE_FILE).locked = true ∧
        (getMutex sMutexDemo .RESOURCE_FILE).lockingProcessID = 0) →
      (getMutex (do_semSignal sMutexDemo 0 "file").1 .RESOURCE_FILE).locked = false ∧
      (getMutex (do_semSignal sMutexDemo 0 "file").1 .RESOURCE_FILE).lockingProcessID = -1) ∧
    (((getMutex sMutexDemo .RESOURCE_FILE).locked = true ∧
        (getMutex sMutexDemo .RESOURCE_FILE).lockingProcessID = 0) →
      (getMutex sMutexDemo .RESOURCE_FILE).blockedQueue = [] →
      (do_semSignal sMutexDemo 0 "file").1 =
        setMutex sMutexDemo .RESOURCE_FILE
          { getMutex sMutexDemo .RESOURCE_FILE with
              locked := false, lockingProcessID := -1 }) ∧
    (((getMutex sMutexDemo .RESOURCE_FILE).locked = true ∧
        (getMutex sMutexDemo .RESOURCE_FILE).lockingProcessID = 0) →
      (getMutex sMutexDemo .RESOURCE_FILE).blockedQueue ≠ [] →
      (getMutex sMutexDemo .RESOURCE_FILE).blockedQueue.Nodup →
      (∀ v ∈ (getMutex sMutexDemo .RESOURCE_FILE).blockedQueue, ∃ p,
        findPCB sMutexDemo v = some p ∧ p.priority < 9999) →
      (getMutex (do_semSignal sMutexDemo 0 "file").1 .RESOURCE_FILE).blockedQueue.length + 1 =
        (getMutex sMutexDemo .RESOURCE_FILE).blockedQueue.length) :=
  do_semSignal_spec sMutexDemo 0 "file" .RESOURCE_FILE (mkPCB 0 .RUNNING 0 0)
    (by decide) (by decide) (by decide) (by decide) (by decide)
    (by
      intro v hv
      have hq : (getMutex sMutexDemo .RESOURCE_FILE).blockedQueue = [1, 2, 3] := by decide
      rw [hq] at hv
      simp only [List.mem_cons, List.not_mem_nil, or_false] at hv
      rcases hv with rfl | rfl | rfl
      · exact ⟨mkPCB 1 .BLOCKED 2 0, by decide⟩
      · exact ⟨mkPCB 2 .BLOCKED 1 0, by decide⟩
      · exact ⟨mkPCB 3 .BLOCKED 1 0, by decide⟩)

/-! ### C5 -/

/-- The events of `n` consecutive driver steps, in order. -/
def runEvents (fs : HostFS) (sys : SystemState) : Nat → List Event
  | 0 => []
  | n + 1 => (stepSimulation sys fs).2 ++ runEvents fs (stepSimulation sys fs).1 n

/-- Whether an event is a process_output callback invocation. -/
def isOutputEv : Event → Bool
  | .output _ _ => true
  | _ => false

/-- The FCFS print-only scenario: clock 0, one process loaded from
Program_1.txt with the single instruction `print x`, and `x` pre-bound to
"hi". -/
def sPrintDemo : SystemState :=
  (setVariable (loadProgram sInit0 "Program_1.txt" ["print x"]).2.1 0 "x" "hi").1

/-- An MLFQ system whose single process is RUNNING at level 0 with its
quantum exhausted (for the quantum-accounting theorems). -/
def sQuantumDemo : SystemState :=
  { (initializeSystem .MLFQ 2).1 with
      processTable := [mkPCB 0 .RUNNING 0 0]
      runningProcessID := 0 }

set_option maxRecDepth 40000 in
/-- C5 counterexample: running the scenario, process_output fires exactly once
with pid 0 (not 1), and the process is already TERMINATED with the simulation
clock at 1 after the very first step — not at cycle 3 as the claim states. -/
theorem fcfs_print_scenario_counterexample :
    ((runEvents fsNone sPrintDemo 4).filter isOutputEv) = [Event.output 0 "hi"] ∧
    pcbStateIs (stepIter fsNone sPrintDemo 1) 0 .TERMINATED = true ∧
    (stepIter fsNone sPrintDemo 1).clockCycle = 1 := by
  decide

set_option maxRecDepth 40000 in
/-- C5 (amended): in the first step (clock 0 → 1) the process arrives, is
dispatched, executes the print emitting process_output(0, "hi"), runs past
the end of its program and terminates; the simulation is then complete, later
steps change nothing, and process_output fires exactly once over the run. -/
theorem fcfs_print_scenario :
    (stepIter fsNone sPrintDemo 1).clockCycle = 1 ∧
    pcbStateIs (stepIter fsNone sPrintDemo 1) 0 .TERMINATED = true ∧
    (stepIter fsNone sPrintDemo 1).simulationComplete = true ∧
    ((stepSimulation sPrintDemo fsNone).2.filter isOutputEv) = [Event.output 0 "hi"] ∧
    ((runEvents fsNone sPrintDemo 4).filter isOutputEv) = [Event.output 0 "hi"] ∧
    stepIter fsNone sPrintDemo 2 = stepIter fsNone sPrintDemo 1 := by
  decide

/-! ### C6: quantum accounting and MLFQ demotion

The pointwise relation `PcbQLe`: mlfqLevel can only grow, quantumRemaining
is untouched.  It is preserved by everything the interpreter can do; the
dispatcher and the pre-execution decrement preserve the weaker level-only
relation. -/

/-- Levels never shrink and quanta are untouched. -/
def PcbQLe (p q : PCB) : Prop :=
  p.mlfqLevel ≤ q.mlfqLevel ∧ p.quantumRemaining = q.quantumRemaining

/-- Pointwise PcbQLe over the whole process table. -/
def tableQ (s s' : SystemState) : Prop :=
  List.Forall₂ PcbQLe s.processTable s'.processTable

/-- Pointwise level-monotonicity over the whole process table. -/
def tableLe (s s' : SystemState) : Prop :=
  List.Forall₂ (fun p q => p.mlfqLevel ≤ q.mlfqLevel) s.processTable s'.processTable

/-- Every NEW process still sits at MLFQ level 0 (true on loaded states). -/
def NewZero (s : SystemState) : Prop :=
  ∀ p ∈ s.processTable, p.state = .NEW → p.mlfqLevel = 0

theorem forall2_refl_of {α : Type} {R : α → α → Prop} (h : ∀ x, R x x) :
    ∀ l : List α, List.Forall₂ R l l := by
  intro l
  induction l with
  | nil => exact List.Forall₂.nil
  | cons a t ih => exact List.Forall₂.cons (h a) ih

theorem forall2_trans_of {α : Type} {R : α → α → Prop}
    (h : ∀ a b c, R a b → R b c → R a c) :
    ∀ {l1 l2 l3 : List α}, List.Forall₂ R l1 l2 → List.Forall₂ R l2 l3 →
      List.Forall₂ R l1 l3 := by
  intro l1 l2 l3 h12 h23
  induction h12 generalizing l3 with
  | nil => cases h23; exact List.Forall₂.nil
  | cons hab h12' ih =>
      cases h23 with
      | cons hbc h23' => exact List.Forall₂.cons (h _ _ _ hab hbc) (ih h23')

theorem forall2_set {α : Type} {R : α → α → Prop} (hrefl : ∀ x, R x x) :
    ∀ (l : List α) (i : Nat) (x : α), (∀ a, l[i]? = some a → R a x) →
      List.Forall₂ R l (l.set i x) := by
  intro l
  induction l with
  | nil => intro i x _; exact List.Forall₂.nil
  | cons a t ih =>
      intro i x h
      cases i with
      | zero => exact List.Forall₂.cons (h a (by simp)) (forall2_refl_of hrefl t)
      | succ j =>
          exact List.Forall₂.cons (hrefl a) (ih j x (fun b hb => h b (by simpa using hb)))

theorem tableQ_refl (s : SystemState) : tableQ s s :=
  forall2_refl_of (fun p => ⟨le_refl _, rfl⟩) _

theorem tableQ_of_eq {s s' : SystemState} (h : s'.processTable = s.processTable) :
    tableQ s s' := by
  unfold tableQ
  rw [h]
  exact forall2_refl_of (fun p => ⟨le_refl _, rfl⟩) _

theorem tableQ_trans {s1 s2 s3 : SystemState} (h1 : tableQ s1 s2) (h2 : tableQ s2 s3) :
    tableQ s1 s3 :=
  forall2_trans_of
    (fun a b c hab hbc => ⟨le_trans hab.1 hbc.1, hab.2.trans hbc.2⟩) h1 h2

theorem tableQ_tableLe {s s' : SystemState} (h : tableQ s s') : tableLe s s' :=
  List.Forall₂.imp (fun a b hab => hab.1) h

theorem tableLe_of_eq {s s' : SystemState} (h : s'.processTable = s.processTable) :
    tableLe s s' := by
  unfold tableLe
  rw [h]
  exact forall2_refl_of (fun (p : PCB) => Nat.le_refl p.mlfqLevel) _

theorem tableLe_trans {s1 s2 s3 : SystemState} (h1 : tableLe s1 s2) (h2 : tableLe s2 s3) :
    tableLe s1 s3 :=
  forall2_trans_of
    (fun (a b c : PCB) (hab : a.mlfqLevel ≤ b.mlfqLevel)
      (hbc : b.mlfqLevel ≤ c.mlfqLevel) => Nat.le_trans hab hbc) h1 h2

/-- A successful findPCB is a getElem? on the table. -/
theorem findPCB_getElem (sys : SystemState) (pid : Int) (p : PCB)
    (h : findPCB sys pid = some p) : sys.processTable[pid.toNat]? = some p := by
  unfold findPCB at h
  split at h
  · exact h
  · exact absurd h (by simp)

theorem tableQ_setPCB {sys : SystemState} {pid : Int} {p pcb' : PCB}
    (hp : findPCB sys pid = some p) (h : PcbQLe p pcb') :
    tableQ sys (setPCB sys pid pcb') := by
  unfold tableQ setPCB
  dsimp only
  apply forall2_set (fun x => ⟨le_refl _, rfl⟩)
  intro a ha
  rw [findPCB_getElem sys pid p hp] at ha
  cases ha
  exact h

theorem tableQ_setMutex (s : SystemState) (r : ResourceType) (m : Mutex) :
    tableQ s (setMutex s r m) := tableQ_of_eq rfl

theorem tableQ_setMLFQ (s : SystemState) (level : Nat) (q : List Int) :
    tableQ s (setMLFQ s level q) := tableQ_of_eq rfl

theorem tableQ_memSet (s : SystemState) (i : Nat) (w : MemoryWord) :
    tableQ s (memSet s i w) := tableQ_of_eq rfl

theorem tableQ_setFlags (s : SystemState) (L : List Bool) :
    tableQ s { s with wasUnblockedThisCycle := L } := tableQ_of_eq rfl

theorem tableQ_terminatePCB (sys : SystemState) (pid : Int) :
    tableQ sys (terminatePCB sys pid) := by
  unfold terminatePCB
  cases h : findPCB sys pid with
  | none => exact tableQ_refl sys
  | some p => exact tableQ_setPCB h ⟨le_refl _, rfl⟩

theorem tableQ_setVariable (sys : SystemState) (pid : Int) (v val : String) :
    tableQ sys (setVariable sys pid v val).1 := by
  unfold setVariable
  cases h : findPCB sys pid with
  | none => exact tableQ_refl sys
  | some p =>
      dsimp only
      split
      · exact tableQ_setPCB h ⟨le_refl _, rfl⟩
      · cases findVariableMemoryIndex sys pid v true with
        | none => exact tableQ_setPCB h ⟨le_refl _, rfl⟩
        | some i => exact tableQ_of_eq rfl

theorem tableQ_getVariable (sys : SystemState) (pid : Int) (v : String) :
    tableQ sys (getVariable sys pid v).2.1 := by
  unfold getVariable
  cases h : findPCB sys pid with
  | none => exact tableQ_refl sys
  | some p =>
      dsimp only
      split
      · exact tableQ_setPCB h ⟨le_refl _, rfl⟩
      · cases findVariableMemoryIndex sys pid v false with
        | some i => exact tableQ_refl sys
        | none =>
            cases findVariableMemoryIndex sys pid ("file_" ++ v) false with
            | some i => exact tableQ_refl sys
            | none => exact tableQ_setPCB h ⟨le_refl _, rfl⟩

theorem tableQ_do_print (sys : SystemState) (pid : Int) (v : String) :
    tableQ sys (do_print sys pid v).1 := by
  unfold do_print
  dsimp only
  split <;> exact tableQ_getVariable sys pid v

theorem tableQ_do_assign (sys : SystemState) (pid : Int) (v s : String) :
    tableQ sys (do_assign sys pid v s).1 := by
  unfold do_assign
  cases findPCB sys pid with
  | none => exact tableQ_refl sys
  | some p =>
      dsimp only
      split
      · exact tableQ_of_eq rfl
      · exact tableQ_setVariable sys pid v s

theorem tableQ_do_writeFile (sys : SystemState) (fs : HostFS) (pid : Int)
    (fv dv : String) : tableQ sys (do_writeFile sys fs pid fv dv).1 := by
  unfold do_writeFile
  cases findPCB sys pid with
  | none => exact tableQ_refl sys
  | some p =>
      dsimp only
      cases (getVariable sys pid fv).1 with
      | none => exact tableQ_getVariable sys pid fv
      | some fn =>
          dsimp only
          have h1 := tableQ_getVariable sys pid fv
          have h2 := tableQ_getVariable (getVariable sys pid fv).2.1 pid dv
          cases (getVariable (getVariable sys pid fv).2.1 pid dv).1 with
          | none => exact tableQ_trans h1 h2
          | some data =>
              dsimp only
              split
              · exact tableQ_trans h1 h2
              · cases hp2 : findPCB (getVariable (getVariable sys pid fv).2.1 pid dv).2.1 pid with
                | none => exact tableQ_trans h1 h2
                | some p2 =>
                    exact tableQ_trans (tableQ_trans h1 h2)
                      (tableQ_setPCB hp2 ⟨le_refl _, rfl⟩)

theorem tableQ_do_readFile (sys : SystemState) (fs : HostFS) (pid : Int)
    (fv : String) : tableQ sys (do_readFile sys fs pid fv).1 := by
  unfold do_readFile
  cases findPCB sys pid with
  | none => exact tableQ_refl sys
  | some p =>
      dsimp only
      have h1 := tableQ_getVariable sys pid fv
      cases (getVariable sys pid fv).1 with
      | none => exact h1
      | some fn =>
          dsimp only
          cases fs.read fn with
          | none =>
              cases hp2 : findPCB (getVariable sys pid fv).2.1 pid with
              | none => exact h1
              | some p2 => exact tableQ_trans h1 (tableQ_setPCB hp2 ⟨le_refl _, rfl⟩)
          | some content =>
              exact tableQ_trans h1
                (tableQ_setVariable (getVariable sys pid fv).2.1 pid _ _)

theorem tableQ_do_printFromTo (sys : SystemState) (pid : Int) (v1 v2 : String) :
    tableQ sys (do_printFromTo sys pid v1 v2).1 := by
  unfold do_printFromTo
  cases findPCB sys pid with
  | none => exact tableQ_refl sys
  | some p =>
      dsimp only
      have h1 := tableQ_getVariable sys pid v1
      cases (getVariable sys pid v1).1 with
      | none => exact h1
      | some s1 =>
          dsimp only
          have h2 := tableQ_getVariable (getVariable sys pid v1).2.1 pid v2
          cases (getVariable (getVariable sys pid v1).2.1 pid v2).1 with
          | none => exact tableQ_trans h1 h2
          | some s2 =>
              dsimp only
              cases strToIntQ s1 with
              | none =>
                  cases hp2 : findPCB (getVariable (getVariable sys pid v1).2.1 pid v2).2.1
                      pid with
                  | none => exact tableQ_trans h1 h2
                  | some p2 =>
                      exact tableQ_trans (tableQ_trans h1 h2)
                        (tableQ_setPCB hp2 ⟨le_refl _, rfl⟩)
              | some n1 =>
                  cases strToIntQ s2 with
                  | none =>
                      cases hp2 : findPCB (getVariable (getVariable sys pid v1).2.1 pid
                          v2).2.1 pid with
                      | none => exact tableQ_trans h1 h2
                      | some p2 =>
                          exact tableQ_trans (tableQ_trans h1 h2)
                            (tableQ_setPCB hp2 ⟨le_refl _, rfl⟩)
                  | some n2 => exact tableQ_trans h1 h2

theorem tableQ_addToReadyQueue (sys : SystemState) (pid : Int) :
    tableQ sys (addToReadyQueue sys pid).1 := by
  unfold addToReadyQueue
  cases h : findPCB sys pid with
  | none => exact tableQ_refl sys
  | some p =>
      dsimp only
      split
      · exact tableQ_setPCB h ⟨le_refl _, rfl⟩
      · have h1 : tableQ sys (setPCB sys pid { p with state := .READY }) :=
          tableQ_setPCB h ⟨le_refl _, rfl⟩
        exact tableQ_trans h1 (tableQ_of_eq rfl)

theorem tableQ_addToMLFQGo (sys : SystemState) (pid : Int) (level fuel : Nat)
    (hlev : ∀ p, findPCB sys pid = some p → p.mlfqLevel ≤ level) :
    tableQ sys (addToMLFQGo sys pid level fuel).1 := by
  induction fuel generalizing sys level with
  | zero => exact tableQ_refl sys
  | succ n ih =>
      unfold addToMLFQGo
      split
      · exact tableQ_refl sys
      · split
        · split
          · exact ih sys (level + 1) (fun p hp => Nat.le_succ_of_le (hlev p hp))
          · cases h : findPCB sys pid with
            | none => exact tableQ_refl sys
            | some p => exact tableQ_setPCB h ⟨le_refl _, rfl⟩
        · cases h : findPCB sys pid with
          | none => exact tableQ_refl sys
          | some p =>
              dsimp only
              have h1 : tableQ sys (setPCB sys pid
                  { p with state := .READY, mlfqLevel := level, priority := level }) :=
                tableQ_setPCB h ⟨hlev p h, rfl⟩
              exact tableQ_trans h1 (tableQ_setMLFQ _ _ _)

theorem tableQ_addToMLFQ (sys : SystemState) (pid : Int) (level : Nat)
    (hlev : ∀ p, findPCB sys pid = some p → p.mlfqLevel ≤ level) :
    tableQ sys (addToMLFQ sys pid level).1 :=
  tableQ_addToMLFQGo sys pid level MLFQ_LEVELS hlev

theorem tableQ_blockProcess (sys : SystemState) (pid : Int) (r : ResourceType) :
    tableQ sys (blockProcess sys pid r).1 := by
  unfold blockProcess
  cases h : findPCB sys pid with
  | none => exact tableQ_refl sys
  | some p =>
      dsimp only
      split
      · have h1 : tableQ sys (setPCB sys pid { p with state := .TERMINATED }) :=
          tableQ_setPCB h ⟨le_refl _, rfl⟩
        refine tableQ_trans h1 ?_
        split
        · exact tableQ_of_eq rfl
        · exact tableQ_refl _
      · have h1 : tableQ sys (setMutex sys r (enqueueMutexBlocked (getMutex sys r) pid).2) :=
          tableQ_setMutex _ _ _
        have hf : findPCB (setMutex sys r (enqueueMutexBlocked (getMutex sys r) pid).2) pid
            = some p := by simpa using h
        have h2 : tableQ (setMutex sys r (enqueueMutexBlocked (getMutex sys r) pid).2)
            (setPCB (setMutex sys r (enqueueMutexBlocked (getMutex sys r) pid).2) pid
              { p with state := .BLOCKED, blockedOnResource := some r }) :=
          tableQ_setPCB hf ⟨le_refl _, rfl⟩
        refine tableQ_trans (tableQ_trans h1 h2) ?_
        split
        · exact tableQ_of_eq rfl
        · exact tableQ_refl _

theorem tableQ_unblockProcess (sys : SystemState) (r : ResourceType) :
    tableQ sys (unblockProcess sys r).1 := by
  unfold unblockProcess
  dsimp only
  split
  · exact tableQ_refl sys
  · split
    · exact tableQ_of_eq rfl
    · rw [findPCB_setMutex]
      cases h : findPCB sys (dequeueMutexBlocked sys (getMutex sys r)).1 with
      | none => exact tableQ_of_eq rfl
      | some pcb =>
          dsimp only
          have h1 : tableQ sys
              (setMutex sys r (dequeueMutexBlocked sys (getMutex sys r)).2.1) :=
            tableQ_setMutex _ _ _
          have hf : findPCB (setMutex sys r (dequeueMutexBlocked sys (getMutex sys r)).2.1)
              (dequeueMutexBlocked sys (getMutex sys r)).1 = some pcb := by simpa using h
          have h2 : tableQ (setMutex sys r (dequeueMutexBlocked sys (getMutex sys r)).2.1)
              (setPCB (setMutex sys r (dequeueMutexBlocked sys (getMutex sys r)).2.1)
                (dequeueMutexBlocked sys (getMutex sys r)).1
                { pcb with state := .READY, blockedOnResource := none }) :=
            tableQ_setPCB hf ⟨le_refl _, rfl⟩
          have h12 : tableQ sys
              (setPCB (setMutex sys r (dequeueMutexBlocked sys (getMutex sys r)).2.1)
                (dequeueMutexBlocked sys (getMutex sys r)).1
                { pcb with state := .READY, blockedOnResource := none }) :=
            tableQ_trans h1 h2
          split
          · refine tableQ_trans ?_ (tableQ_addToMLFQ _ _ _ ?_)
            · exact tableQ_trans h12 (tableQ_of_eq rfl)
            intro p2 hp2
            have h5 := findPCB_setPCB_self
              (setMutex sys r (dequeueMutexBlocked sys (getMutex sys r)).2.1)
              (dequeueMutexBlocked sys (getMutex sys r)).1 pcb
              { pcb with state := .READY, blockedOnResource := none } hf
            have h6 : some p2 =
                some ({ pcb with state := .READY, blockedOnResource := none } : PCB) := by
              rw [← hp2]; exact h5
            cases h6
            exact le_refl _
          · refine tableQ_trans ?_ (tableQ_addToReadyQueue _ _)
            exact tableQ_trans h12 (tableQ_of_eq rfl)

theorem tableQ_do_semWait (sys : SystemState) (pid : Int) (resName : String) :
    tableQ sys (do_semWait sys pid resName).1 := by
  unfold do_semWait
  cases h : findPCB sys pid with
  | none => exact tableQ_refl sys
  | some p =>
      dsimp only
      cases getResourceTypeFromString resName with
      | none => exact tableQ_setPCB h ⟨le_refl _, rfl⟩
      | some r =>
          dsimp only
          split
          · have h1 : tableQ sys (setPCB sys pid
                { p with priority :=
                    if sys.schedulerType = .MLFQ then p.mlfqLevel else 0 }) :=
              tableQ_setPCB h ⟨le_refl _, rfl⟩
            exact tableQ_trans h1 (tableQ_blockProcess _ pid r)
          · exact tableQ_setMutex _ _ _

theorem tableQ_do_semSignal (sys : SystemState) (pid : Int) (resName : String) :
    tableQ sys (do_semSignal sys pid resName).1 := by
  unfold do_semSignal
  cases h : findPCB sys pid with
  | none => exact tableQ_refl sys
  | some p =>
      dsimp only
      cases getResourceTypeFromString resName with
      | none => exact tableQ_setPCB h ⟨le_refl _, rfl⟩
      | some r =>
          dsimp only
          split <;> split <;>
            first
            | exact tableQ_trans (tableQ_setMutex sys r _) (tableQ_unblockProcess _ r)
            | exact tableQ_setPCB h ⟨le_refl _, rfl⟩

theorem tableQ_dispatchCommand (sys : SystemState) (fs : HostFS) (pid : Int)
    (cmd a1 a2 a3 : Option String) :
    tableQ sys (dispatchCommand sys fs pid cmd a1 a2 a3).sys := by
  unfold dispatchCommand
  cases cmd with
  | none => exact tableQ_refl sys
  | some c =>
      dsimp only
      split
      · -- print
        split
        · exact tableQ_do_print _ _ _
        · exact tableQ_refl sys
      split
      · -- assign
        split
        · -- (some x, some src)
          split
          · -- assign readFile composite
            split
            · exact tableQ_getVariable _ _ _
            · have h1 : tableQ sys (getVariable sys pid (a3.getD "")).2.1 :=
                tableQ_getVariable _ _ _
              have h2 : tableQ sys
                  (do_readFile (getVariable sys pid (a3.getD "")).2.1 fs pid
                    (a3.getD "")).1 :=
                tableQ_trans h1 (tableQ_do_readFile _ _ _ _)
              split
              · exact h2
              · have h3 : tableQ sys
                    (getVariable
                      (do_readFile (getVariable sys pid (a3.getD "")).2.1 fs pid
                        (a3.getD "")).1 pid ("file_" ++ a3.getD "")).2.1 :=
                  tableQ_trans h2 (tableQ_getVariable _ _ _)
                split
                · exact h3
                · exact tableQ_trans h3 (tableQ_setVariable _ _ _ _)
          · exact tableQ_do_assign _ _ _ _
        all_goals exact tableQ_refl sys
      split
      · -- writeFile
        split
        · exact tableQ_do_writeFile _ _ _ _ _
        all_goals exact tableQ_refl sys
      split
      · -- readFile
        split
        · exact tableQ_do_readFile _ _ _ _
        · exact tableQ_refl sys
      split
      · -- printFromTo
        split
        · exact tableQ_do_printFromTo _ _ _ _
        all_goals exact tableQ_refl sys
      split
      · -- semWait
        split
        · exact tableQ_do_semWait _ _ _
        · exact tableQ_refl sys
      split
      · -- semSignal
        split
        · exact tableQ_do_semSignal _ _ _
        · exact tableQ_refl sys
      exact tableQ_refl sys

theorem tableQ_interpretInstruction (sys : SystemState) (fs : HostFS) (pid : Int) :
    tableQ sys (interpretInstruction sys fs pid).1 := by
  unfold interpretInstruction
  cases hf : findPCB sys pid with
  | none => exact tableQ_of_eq rfl
  | some pcb =>
      dsimp only
      have hT : tableQ sys (setPCB sys pid { pcb with state := .TERMINATED }) :=
        tableQ_setPCB hf ⟨le_refl _, rfl⟩
      split
      · exact tableQ_trans hT (tableQ_of_eq rfl)
      split
      · exact hT
      split
      · exact tableQ_trans hT (tableQ_of_eq rfl)
      generalize strTokens (memGet sys (pcb.memoryLowerBound + pcb.programCounter)).value = L
      generalize hD : dispatchCommand sys fs pid L[0]? L[1]? L[2]? L[3]? = D
      have hDq : tableQ sys D.sys := by
        rw [← hD]
        exact tableQ_dispatchCommand sys fs pid L[0]? L[1]? L[2]? L[3]?
      generalize hEe : (if D.error = true then
          (terminatePCB D.sys pid,
            D.events ++ [Event.log "Error processing instruction. Terminating."], true)
        else (D.sys, D.events, D.completed)) = E
      have hE : tableQ sys E.1 := by
        rw [← hEe]
        split
        · exact tableQ_trans hDq (tableQ_terminatePCB _ _)
        · exact hDq
      split
      · split
        · rename_i p hp
          have h1 : tableQ sys
              (setPCB E.1 pid { p with programCounter := p.programCounter + 1 }) :=
            tableQ_trans hE (tableQ_setPCB hp ⟨le_refl _, rfl⟩)
          split
          · exact tableQ_trans h1
              (tableQ_setPCB (findPCB_setPCB_self _ _ _ _ hp) ⟨le_refl _, rfl⟩)
          · exact h1
        · exact hE
      · exact hE

theorem tableQ_setRunning (s : SystemState) (v : Int) :
    tableQ s { s with runningProcessID := v } := tableQ_of_eq rfl

theorem tableLe_setPCB {sys : SystemState} {pid : Int} {p pcb' : PCB}
    (hp : findPCB sys pid = some p) (h : p.mlfqLevel ≤ pcb'.mlfqLevel) :
    tableLe sys (setPCB sys pid pcb') := by
  unfold tableLe setPCB
  dsimp only
  apply forall2_set (R := fun (a b : PCB) => a.mlfqLevel ≤ b.mlfqLevel) (fun x => le_refl _)
  intro a ha
  rw [findPCB_getElem sys pid p hp] at ha
  cases ha
  exact h

theorem forall2_findPCB {R : PCB → PCB → Prop} {s s' : SystemState}
    (ht : List.Forall₂ R s.processTable s'.processTable) {pid : Int} {p : PCB}
    (hp : findPCB s pid = some p) :
    ∃ q, findPCB s' pid = some q ∧ R p q := by
  have hlen := ht.length_eq
  unfold findPCB SystemState.processCount at hp ⊢
  split at hp
  · rename_i hc
    rw [if_pos ⟨hc.1, by omega⟩]
    obtain ⟨hil, hv⟩ := List.getElem?_eq_some.mp hp
    have hil2 : pid.toNat < s'.processTable.length := by omega
    refine ⟨s'.processTable[pid.toNat], List.getElem?_eq_some.mpr ⟨hil2, rfl⟩, ?_⟩
    have hg := (List.forall₂_iff_get.mp ht).2 pid.toNat hil hil2
    rw [List.get_eq_getElem, List.get_eq_getElem, hv] at hg
    exact hg
  · cases hp

theorem findPCB_table_congr {s s' : SystemState}
    (h : s'.processTable = s.processTable) (pid : Int) :
    findPCB s' pid = findPCB s pid := by
  unfold findPCB SystemState.processCount
  rw [h]

theorem isSimulationComplete_table (s : SystemState) :
    (isSimulationComplete s).2.processTable = s.processTable := by
  unfold isSimulationComplete
  dsimp only
  split
  · rfl
  · split
    · rfl
    · split <;> rfl

theorem checkArrivalsFlagsLoop_table (l : List Nat) (sys : SystemState) :
    (checkArrivalsFlagsLoop sys l).processTable = sys.processTable := by
  induction l generalizing sys with
  | nil => rfl
  | cons i rest ih =>
      unfold checkArrivalsFlagsLoop
      dsimp only
      split
      · rw [ih]
      · exact ih sys

theorem schedMLFQScan_table (l : List Nat) (sys : SystemState) :
    (schedMLFQScan sys l).2.processTable = sys.processTable := by
  induction l generalizing sys with
  | nil => rfl
  | cons lvl rest ih =>
      unfold schedMLFQScan
      dsimp only
      split
      · rw [ih]
        rfl
      · rfl

theorem scheduleNextProcess_table (sys : SystemState) :
    (scheduleNextProcess sys).2.processTable = sys.processTable := by
  unfold scheduleNextProcess
  split
  · exact schedMLFQScan_table _ sys
  · rfl

theorem NewZero_of_eq {s s' : SystemState} (h : s'.processTable = s.processTable)
    (hz : NewZero s) : NewZero s' := by
  intro p hp hn
  rw [h] at hp
  exact hz p hp hn

theorem NewZero_setPCB {sys : SystemState} {pid : Int} {pcb' : PCB}
    (hz : NewZero sys) (hp : pcb'.state ≠ .NEW) : NewZero (setPCB sys pid pcb') := by
  intro p hmem hn
  rcases List.mem_or_eq_of_mem_set hmem with h1 | h2
  · exact hz p h1 hn
  · rw [h2] at hn
    exact absurd hn hp

theorem NewZero_addToReadyQueue {sys : SystemState} (pid : Int)
    (hz : NewZero sys) : NewZero (addToReadyQueue sys pid).1 := by
  unfold addToReadyQueue
  cases findPCB sys pid with
  | none => exact hz
  | some p =>
      dsimp only
      split
      · exact NewZero_setPCB hz (fun h => nomatch h)
      · exact NewZero_of_eq rfl (NewZero_setPCB hz (fun h => nomatch h))

theorem NewZero_addToMLFQGo {sys : SystemState} (pid : Int) (level fuel : Nat)
    (hz : NewZero sys) : NewZero (addToMLFQGo sys pid level fuel).1 := by
  induction fuel generalizing sys level with
  | zero => exact hz
  | succ n ih =>
      unfold addToMLFQGo
      split
      · exact hz
      · split
        · split
          · apply ih
            exact hz
          · cases findPCB sys pid with
            | none => exact hz
            | some p => exact NewZero_setPCB hz (fun h => nomatch h)
        · cases findPCB sys pid with
          | none => exact hz
          | some p =>
              exact NewZero_of_eq rfl (NewZero_setPCB hz (fun h => nomatch h))

theorem NewZero_addToMLFQ {sys : SystemState} (pid : Int) (level : Nat)
    (hz : NewZero sys) : NewZero (addToMLFQ sys pid level).1 :=
  NewZero_addToMLFQGo pid level MLFQ_LEVELS hz

theorem mem_of_getElemQ {l : List PCB} {i : Nat} {a : PCB} (h : l[i]? = some a) :
    a ∈ l := by
  obtain ⟨hl, hv⟩ := List.getElem?_eq_some.mp h
  rw [← hv]
  exact List.getElem_mem hl

theorem findPCB_ofNat_getElem (sys : SystemState) (i : Nat) (pcb : PCB)
    (h : sys.processTable[i]? = some pcb) : findPCB sys (i : Int) = some pcb := by
  obtain ⟨hl, hv⟩ := List.getElem?_eq_some.mp h
  unfold findPCB SystemState.processCount
  rw [if_pos ⟨by omega, by omega⟩]
  simpa using h

theorem tableQ_checkArrivalsLoop (l : List Nat) (sys : SystemState)
    (hz : NewZero sys) : tableQ sys (checkArrivalsLoop sys l).1 := by
  induction l generalizing sys with
  | nil => exact tableQ_refl sys
  | cons i rest ih =>
      unfold checkArrivalsLoop
      cases hg : sys.processTable[i]? with
      | none =>
          apply ih
          exact hz
      | some pcb =>
          dsimp only
          split
          · rename_i hc
            have hf : findPCB sys (i : Int) = some pcb := findPCB_ofNat_getElem sys i pcb hg
            have h1 : tableQ sys (setPCB sys (i : Int) { pcb with state := .READY }) :=
              tableQ_setPCB hf ⟨le_refl _, rfl⟩
            have hz1 : NewZero (setPCB sys (i : Int) { pcb with state := .READY }) :=
              NewZero_setPCB hz (fun h => nomatch h)
            have hlev0 : pcb.mlfqLevel = 0 := hz pcb (mem_of_getElemQ hg) hc.1
            split
            · have h2 : tableQ sys (addToMLFQ
                  (setPCB sys (i : Int) { pcb with state := .READY }) (i : Int) 0).1 :=
                tableQ_trans h1 (tableQ_addToMLFQ _ _ _ (fun q hq => by
                  rw [findPCB_setPCB_self _ _ _ _ hf] at hq
                  cases hq
                  exact hlev0.le))
              refine tableQ_trans h2 ?_
              apply ih
              exact NewZero_addToMLFQ _ _ hz1
            · have h2 : tableQ sys (addToReadyQueue
                  (setPCB sys (i : Int) { pcb with state := .READY }) (i : Int)).1 :=
                tableQ_trans h1 (tableQ_addToReadyQueue _ _)
              refine tableQ_trans h2 ?_
              apply ih
              exact NewZero_addToReadyQueue _ hz1
          · apply ih
            exact hz

theorem tableQ_checkArrivals (sys : SystemState) (hz : NewZero sys) :
    tableQ sys (checkArrivals sys).1 := by
  unfold checkArrivals
  dsimp only
  have ht := checkArrivalsFlagsLoop_table (List.range sys.processCount) sys
  refine tableQ_trans (tableQ_of_eq ht) ?_
  apply tableQ_checkArrivalsLoop
  exact NewZero_of_eq ht hz

theorem tableQ_quantumCheckPhase (sys : SystemState) :
    tableQ sys (quantumCheckPhase sys).1 := by
  unfold quantumCheckPhase
  split
  · cases hp : findPCB sys sys.runningProcessID with
    | none => exact tableQ_setRunning sys (-1)
    | some p =>
        dsimp only
        split
        · exact tableQ_setRunning sys (-1)
        split
        · have h1 : tableQ sys
              (setPCB sys sys.runningProcessID { p with state := .READY }) :=
            tableQ_setPCB hp ⟨le_refl _, rfl⟩
          have h2 : tableQ sys (addToReadyQueue
              (setPCB sys sys.runningProcessID { p with state := .READY })
              sys.runningProcessID).1 :=
            tableQ_trans h1 (tableQ_addToReadyQueue _ _)
          exact tableQ_trans h2 (tableQ_of_eq rfl)
        split
        · have h1 : tableQ sys
              (setPCB sys sys.runningProcessID { p with state := .READY }) :=
            tableQ_setPCB hp ⟨le_refl _, rfl⟩
          have h2 : tableQ sys (addToMLFQ
              (setPCB sys sys.runningProcessID { p with state := .READY })
              sys.runningProcessID
              (if p.mlfqLevel < MLFQ_LEVELS - 1 then p.mlfqLevel + 1
                else p.mlfqLevel)).1 :=
            tableQ_trans h1 (tableQ_addToMLFQ _ _ _ (fun q hq => by
              rw [findPCB_setPCB_self _ _ _ _ hp] at hq
              cases hq
              dsimp only
              split <;> omega))
          exact tableQ_trans h2 (tableQ_of_eq rfl)
        · exact tableQ_refl sys
  · exact tableQ_refl sys

theorem tableLe_dispatchPhase (sys : SystemState) (need : Bool) :
    tableLe sys (dispatchPhase sys need).1 := by
  unfold dispatchPhase
  split
  · dsimp only
    split
    · split
      · rename_i p hp
        have h0 : tableLe sys { (scheduleNextProcess sys).2 with
            runningProcessID := (scheduleNextProcess sys).1 } :=
          tableLe_of_eq (by exact scheduleNextProcess_table sys)
        exact tableLe_trans h0 (tableLe_setPCB hp (le_refl _))
      · exact tableLe_of_eq (by exact scheduleNextProcess_table sys)
    · exact tableLe_of_eq (by exact scheduleNextProcess_table sys)
  · exact tableLe_of_eq rfl

theorem tableLe_execTail (sys0 S : SystemState) (fs : HostFS) (pid : Int)
    (h1 : tableLe sys0 S) :
    tableLe sys0 (if pcbStateIs (interpretInstruction S fs pid).1 pid .TERMINATED = true
      then
        ({ (isSimulationComplete (interpretInstruction S fs pid).1).2 with
            runningProcessID := -1 },
          (interpretInstruction S fs pid).2 ++
            [Event.log "Process terminated during execution.", Event.stateUpdate])
      else ((interpretInstruction S fs pid).1, (interpretInstruction S fs pid).2)).1 := by
  have h2 : tableLe sys0 (interpretInstruction S fs pid).1 :=
    tableLe_trans h1 (tableQ_tableLe (tableQ_interpretInstruction S fs pid))
  split
  · exact tableLe_trans h2 (tableLe_of_eq (by exact isSimulationComplete_table _))
  · exact h2

theorem tableLe_executePhase (sys : SystemState) (fs : HostFS) :
    tableLe sys (executePhase sys fs).1 := by
  unfold executePhase
  split
  · dsimp only
    split
    · by_cases hrr : sys.schedulerType = .RR ∨ sys.schedulerType = .MLFQ
      · rw [if_pos hrr]
        cases hp : findPCB sys sys.runningProcessID with
        | none =>
            dsimp only
            exact tableLe_execTail sys sys fs sys.runningProcessID (tableLe_of_eq rfl)
        | some p =>
            dsimp only
            exact tableLe_execTail sys _ fs _ (tableLe_setPCB hp (le_refl _))
      · rw [if_neg hrr]
        exact tableLe_execTail sys sys fs sys.runningProcessID (tableLe_of_eq rfl)
    · exact tableLe_of_eq rfl
  · exact tableLe_of_eq rfl

theorem tableLe_stepTail (sys0 B : SystemState) (fs : HostFS) (hz : NewZero B)
    (h0 : tableLe sys0 B) :
    tableLe sys0 (
      let header := Event.log ("--- Clock Cycle " ++ toString B.clockCycle ++ " ---")
      let ca := checkArrivals B
      let qc := quantumCheckPhase ca.1
      let dp := dispatchPhase qc.1 qc.2.2
      let ex := executePhase dp.1 fs
      let sysC := { ex.1 with clockCycle := ex.1.clockCycle + 1 }
      let cf := isSimulationComplete sysC
      let evs := header :: ca.2 ++ qc.2.1 ++ dp.2 ++ ex.2
      if cf.1 then
        (cf.2, evs ++ [Event.log "Simulation Complete.", Event.stateUpdate])
      else (cf.2, evs)).1 := by
  dsimp only
  generalize hCA : checkArrivals B = CA
  have h1 : tableLe sys0 CA.1 := tableLe_trans h0
    (by rw [← hCA]; exact tableQ_tableLe (tableQ_checkArrivals B hz))
  generalize hQC : quantumCheckPhase CA.1 = QC
  have h2 : tableLe sys0 QC.1 := tableLe_trans h1
    (by rw [← hQC]; exact tableQ_tableLe (tableQ_quantumCheckPhase CA.1))
  generalize hDP : dispatchPhase QC.1 QC.2.2 = DP
  have h3 : tableLe sys0 DP.1 := tableLe_trans h2
    (by rw [← hDP]; exact tableLe_dispatchPhase QC.1 QC.2.2)
  generalize hEX : executePhase DP.1 fs = EX
  have h4 : tableLe sys0 EX.1 := tableLe_trans h3
    (by rw [← hEX]; exact tableLe_executePhase DP.1 fs)
  have h5 : tableLe sys0 { EX.1 with clockCycle := EX.1.clockCycle + 1 } :=
    tableLe_trans h4 (tableLe_of_eq rfl)
  split
  · exact tableLe_trans h5 (tableLe_of_eq (by exact isSimulationComplete_table _))
  · exact tableLe_trans h5 (tableLe_of_eq (by exact isSimulationComplete_table _))

theorem tableLe_stepSimulation (sys : SystemState) (fs : HostFS) (hz : NewZero sys) :
    tableLe sys (stepSimulation sys fs).1 := by
  unfold stepSimulation
  dsimp only
  split
  · exact tableLe_of_eq (by exact isSimulationComplete_table sys)
  · split
    · exact tableLe_of_eq (by exact isSimulationComplete_table sys)
    · exact tableLe_stepTail sys _ fs
        (NewZero_of_eq (by exact isSimulationComplete_table sys) hz)
        (tableLe_of_eq (by exact isSimulationComplete_table sys))

@[simp] theorem getMLFQ_setRunning (sys : SystemState) (v : Int) (level : Nat) :
    getMLFQ { sys with runningProcessID := v } level = getMLFQ sys level := rfl

theorem getMLFQ_setMLFQ_setPCB (sys : SystemState) (a b : Int) (x y : PCB)
    (level : Nat) (q : List Int) (h : level < sys.mlfqRQ.length) :
    getMLFQ (setMLFQ (setPCB (setPCB sys a x) b y) level q) level = q := by
  apply getMLFQ_setMLFQ_self
  exact h

theorem executePhase_quantum_dec (sys : SystemState) (fs : HostFS) (p : PCB)
    (h0 : 0 ≤ sys.runningProcessID)
    (hp : findPCB sys sys.runningProcessID = some p)
    (hst : p.state = .RUNNING)
    (hni : sys.needsInput = false)
    (hsch : sys.schedulerType = .RR ∨ sys.schedulerType = .MLFQ) :
    ∃ q, findPCB (executePhase sys fs).1 sys.runningProcessID = some q ∧
      q.quantumRemaining = p.quantumRemaining - 1 ∧ p.mlfqLevel ≤ q.mlfqLevel := by
  unfold executePhase
  rw [if_pos h0]
  dsimp only
  rw [if_pos (by simp [pcbStateIs, hp, hst, hni])]
  rw [if_pos hsch, hp]
  dsimp only
  generalize hI : interpretInstruction (setPCB sys sys.runningProcessID
      { p with quantumRemaining := p.quantumRemaining - 1 }) fs sys.runningProcessID = I
  have hqt : tableQ (setPCB sys sys.runningProcessID
      { p with quantumRemaining := p.quantumRemaining - 1 }) I.1 := by
    rw [← hI]
    exact tableQ_interpretInstruction _ _ _
  have hf1 : findPCB (setPCB sys sys.runningProcessID
      { p with quantumRemaining := p.quantumRemaining - 1 }) sys.runningProcessID =
      some { p with quantumRemaining := p.quantumRemaining - 1 } :=
    findPCB_setPCB_self _ _ _ _ hp
  obtain ⟨q, hfq, hrel⟩ := forall2_findPCB hqt hf1
  split
  · exact ⟨q, (findPCB_table_congr (by exact isSimulationComplete_table I.1)
      sys.runningProcessID).trans hfq, hrel.2.symm, hrel.1⟩
  · exact ⟨q, hfq, hrel.2.symm, hrel.1⟩

theorem quantumCheckPhase_mlfq_demote (sys : SystemState) (p : PCB)
    (h0 : 0 ≤ sys.runningProcessID)
    (hp : findPCB sys sys.runningProcessID = some p)
    (hst : p.state = .RUNNING)
    (hsch : sys.schedulerType = .MLFQ)
    (hq : p.quantumRemaining ≤ 0)
    (hlv : p.mlfqLevel < MLFQ_LEVELS)
    (hrq : sys.mlfqRQ.length = MLFQ_LEVELS)
    (hcap : (getMLFQ sys (min (p.mlfqLevel + 1) 3)).length < MAX_QUEUE_SIZE) :
    (quantumCheckPhase sys).2.2 = true ∧
    (quantumCheckPhase sys).1.runningProcessID = -1 ∧
    ∃ q, findPCB (quantumCheckPhase sys).1 sys.runningProcessID = some q ∧
      q.state = .READY ∧ q.mlfqLevel = min (p.mlfqLevel + 1) 3 ∧
      getMLFQ (quantumCheckPhase sys).1 (min (p.mlfqLevel + 1) 3) =
        getMLFQ sys (min (p.mlfqLevel + 1) 3) ++ [sys.runningProcessID] := by
  have hmin : (if p.mlfqLevel < MLFQ_LEVELS - 1 then p.mlfqLevel + 1 else p.mlfqLevel) =
      min (p.mlfqLevel + 1) 3 := by
    rw [show MLFQ_LEVELS = 4 from rfl] at hlv ⊢
    split <;> omega
  unfold quantumCheckPhase
  rw [if_pos h0, hp]
  dsimp only
  rw [if_neg (not_not_intro hst)]
  rw [if_neg (by simp [hsch])]
  rw [if_pos ⟨hsch, hq⟩]
  dsimp only
  rw [hmin]
  have hpcb1 : findPCB (setPCB sys sys.runningProcessID { p with state := .READY })
      sys.runningProcessID = some { p with state := .READY } :=
    findPCB_setPCB_self _ _ _ _ hp
  rw [addToMLFQ_ok _ _ { p with state := .READY } (min (p.mlfqLevel + 1) 3) hpcb1
    (by rw [show MLFQ_LEVELS = 4 from rfl]; omega)
    (by rw [getMLFQ_setPCB]; exact hcap)]
  refine ⟨rfl, rfl, ⟨{ p with
      state := .READY
      mlfqLevel := min (p.mlfqLevel + 1) 3
      priority := min (p.mlfqLevel + 1) 3 }, ?_, rfl, rfl, ?_⟩⟩
  · rw [findPCB_setRunning, findPCB_setMLFQ]
    exact findPCB_setPCB_self _ _ _ _ hpcb1
  · rw [getMLFQ_setRunning,
      getMLFQ_setMLFQ_setPCB sys sys.runningProcessID sys.runningProcessID _ _ _ _
        (by rw [hrq, show MLFQ_LEVELS = 4 from rfl]; omega),
      getMLFQ_setPCB]

theorem stepSimulation_no_promotion (sys : SystemState) (fs : HostFS)
    (hz : NewZero sys) (pid : Int) (p q : PCB)
    (hp : findPCB sys pid = some p)
    (hq : findPCB (stepSimulation sys fs).1 pid = some q) :
    p.mlfqLevel ≤ q.mlfqLevel := by
  have ht := tableLe_stepSimulation sys fs hz
  obtain ⟨q2, hq2, hle⟩ := forall2_findPCB ht hp
  rw [hq] at hq2
  have he : q = q2 := Option.some.inj hq2
  rw [he]
  exact hle

/-- C6: Under RR and MLFQ the running process has its quantumRemaining
decremented by exactly 1 immediately before the instruction executes (part 1);
when the MLFQ quantum check finds the running process with quantumRemaining
at or below zero it reports preemption, idles the CPU, marks the process
READY and requeues it at level min(currentLevel + 1, 3) (part 2); and across
a full stepSimulation no MLFQ level ever decreases, given every NEW process
sits at level 0 (part 3). -/
theorem quantum_accounting_spec (sys : SystemState) (fs : HostFS) :
    (∀ p : PCB, 0 ≤ sys.runningProcessID →
      findPCB sys sys.runningProcessID = some p →
      p.state = .RUNNING → sys.needsInput = false →
      (sys.schedulerType = .RR ∨ sys.schedulerType = .MLFQ) →
      ∃ q, findPCB (executePhase sys fs).1 sys.runningProcessID = some q ∧
        q.quantumRemaining = p.quantumRemaining - 1 ∧ p.mlfqLevel ≤ q.mlfqLevel) ∧
    (∀ p : PCB, 0 ≤ sys.runningProcessID →
      findPCB sys sys.runningProcessID = some p →
      p.state = .RUNNING → sys.schedulerType = .MLFQ →
      p.quantumRemaining ≤ 0 → p.mlfqLevel < MLFQ_LEVELS →
      sys.mlfqRQ.length = MLFQ_LEVELS →
      (getMLFQ sys (min (p.mlfqLevel + 1) 3)).length < MAX_QUEUE_SIZE →
      (quantumCheckPhase sys).2.2 = true ∧
      (quantumCheckPhase sys).1.runningProcessID = -1 ∧
      ∃ q, findPCB (quantumCheckPhase sys).1 sys.runningProcessID = some q ∧
        q.state = .READY ∧ q.mlfqLevel = min (p.mlfqLevel + 1) 3 ∧
        getMLFQ (quantumCheckPhase sys).1 (min (p.mlfqLevel + 1) 3) =
          getMLFQ sys (min (p.mlfqLevel + 1) 3) ++ [sys.runningProcessID]) ∧
    (NewZero sys → ∀ pid (p q : PCB), findPCB sys pid = some p →
      findPCB (stepSimulation sys fs).1 pid = some q → p.mlfqLevel ≤ q.mlfqLevel) :=
  ⟨fun p h0 hp hst hni hsch => executePhase_quantum_dec sys fs p h0 hp hst hni hsch,
   fun p h0 hp hst hsch hq hlv hrq hcap =>
     quantumCheckPhase_mlfq_demote sys p h0 hp hst hsch hq hlv hrq hcap,
   fun hz pid p q hp hq => stepSimulation_no_promotion sys fs hz pid p q hp hq⟩

set_option maxRecDepth 40000 in
/-- C6 witness: the single MLFQ process of sQuantumDemo (level 0, quantum 0,
RUNNING) has its quantum decremented through executePhase, is demoted to
level 1 by the quantum check, and after a full step its level has not
decreased. -/
theorem quantum_accounting_spec_witness :
    (∃ q, findPCB (executePhase sQuantumDemo fsNone).1 sQuantumDemo.runningProcessID =
        some q ∧
      q.quantumRemaining = (mkPCB 0 .RUNNING 0 0).quantumRemaining - 1 ∧
      (mkPCB 0 .RUNNING 0 0).mlfqLevel ≤ q.mlfqLevel) ∧
    (quantumCheckPhase sQuantumDemo).2.2 = true ∧
    (mkPCB 0 .RUNNING 0 0).mlfqLevel ≤
      ({ processID := 0, programNumber := 0, state := .TERMINATED, priority := 1,
         programCounter := 0, memoryLowerBound := 0, memoryUpperBound := 8,
         arrivalTime := 0, blockedOnResource := none, quantumRemaining := 1,
         mlfqLevel := 1 } : PCB).mlfqLevel := by
  refine ⟨?_, ?_, ?_⟩
  · exact (quantum_accounting_spec sQuantumDemo fsNone).1 (mkPCB 0 .RUNNING 0 0)
      (by decide) (by decide) (by decide) (by decide) (Or.inr (by decide))
  · exact ((quantum_accounting_spec sQuantumDemo fsNone).2.1 (mkPCB 0 .RUNNING 0 0)
      (by decide) (by decide) (by decide) (by decide) (by decide) (by decide)
      (by decide) (by decide)).1
  · exact (quantum_accounting_spec sQuantumDemo fsNone).2.2
      (by unfold NewZero; decide) 0 (mkPCB 0 .RUNNING 0 0)
      { processID := 0, programNumber := 0, state := .TERMINATED, priority := 1,
        programCounter := 0, memoryLowerBound := 0, memoryUpperBound := 8,
        arrivalTime := 0, blockedOnResource := none, quantumRemaining := 1,
        mlfqLevel := 1 }
      (by decide) (by decide)

end MiniOS
